import Mathlib

/-!
Verification development for the snowpack dependency-install core.

The embedding below is a shallow translation of:
  * `src/unnamed/part_001`  — the install command (`resolveWebDependency`,
    `install`, `getInstallTargets`, `command`, `run`, `isImportOfPackage`,
    `getWebDependencyName`);
  * `src/packages/snowpack/src/scan-imports.ts` — the import scanner
    (`getWebModuleSpecifierFromCode`, `parseWebModuleSpecifier`,
    `parseImportStatement`, `parseCodeForInstallTargets`,
    `scanImportsFromFiles`).

External collaborators (the Node filesystem and resolver, the
`validate-npm-package-name` library, the es-module-lexer, rollup, the remote
CDN) are modelled as an explicit environment record; functions from the
repository's `util.js` (not among the provided sources) are modelled from the
spec and carry a doc comment saying so.

JavaScript-specific semantics (truthiness, `||` chains, regexes actually used
by the source) are embedded explicitly.
-/

namespace Snowpack

/-! ## JS value model and small helpers -/

/-- A JSON-ish value as the resolver sees `package.json` fields.  `other` keeps
only the JS truthiness of values the resolver never looks inside (booleans,
numbers, arrays, `null`). -/
inductive JsVal where
  | str (s : String)
  | obj (fields : List (String × JsVal))
  | other (truthy : Bool)
deriving Repr

/-- JS truthiness of a `JsVal` (the empty string is falsy, objects are truthy). -/
def JsVal.truthy : JsVal → Bool
  | .str s => s ≠ ""
  | .obj _ => true
  | .other t => t

/-- First binding of a key in a JS object literal. -/
def objGet (fields : List (String × JsVal)) (key : String) : Option JsVal :=
  (fields.find? (·.1 = key)).map (·.2)

/-- `a?.k` — field access that yields `none` on non-objects, like JS `undefined`. -/
def JsVal.getField : JsVal → String → Option JsVal
  | .obj fs, key => objGet fs key
  | _, _ => none

/-- JS `a || b` on possibly-`undefined` values (`none` = `undefined`):
returns `b` whenever `a` is absent or falsy. -/
def jsOrO (a b : Option JsVal) : Option JsVal :=
  match a with
  | some v => if v.truthy then some v else b
  | none => b

/-- JS `a || b` where `a` is an optional string field. -/
def jsOrS (a : Option String) (b : Option JsVal) : Option JsVal :=
  jsOrO (a.map .str) b

/-- JS truthiness of an optional string (absent and `""` are falsy). -/
def strTruthy : Option String → Bool
  | some s => s ≠ ""
  | none => false

/-- `String.startsWith`, via character lists so that it kernel-reduces. -/
def strStartsWith (s p : String) : Bool :=
  p.toList.isPrefixOf s.toList

/-- `String.endsWith`, via character lists so that it kernel-reduces. -/
def strEndsWith (s p : String) : Bool :=
  p.toList.isSuffixOf s.toList

/-- `String.drop`, via character lists so that it kernel-reduces. -/
def strDrop (s : String) (n : Nat) : String :=
  (s.toList.drop n).asString

/-- JS `String.prototype.split(sep)` on character lists (keeps empty pieces,
`"" ↦ [""]`). -/
def splitCh (sep : Char) : List Char → List (List Char)
  | [] => [[]]
  | x :: xs =>
    match splitCh sep xs with
    | [] => if x = sep then [[], []] else [[x]]
    | h :: t => if x = sep then [] :: h :: t else (x :: h) :: t

/-- JS `String.prototype.split(sep)`. -/
def splitString (sep : Char) (s : String) : List String :=
  (splitCh sep s.toList).map List.asString

/-- Is `pat` an infix of `l`? -/
def listInfix (pat : List Char) : List Char → Bool
  | [] => pat.isEmpty
  | l@(_ :: t) => pat.isPrefixOf l || listInfix pat t

/-- Does `s` contain `pat` as a substring? -/
def containsSubstr (s pat : String) : Bool :=
  listInfix pat.toList s.toList

/-- JS `String.prototype.substring(a, b)` for `a ≤ b` (by code units; the
sources only ever index ASCII here). -/
def strSub (s : String) (a b : Nat) : String :=
  (((s.toList).drop a).take (b - a)).asString

/-- Index of the last occurrence of `c` in `l`. -/
def lastIndexOf (l : List Char) (c : Char) : Option Nat :=
  (l.enum.filter (fun p => p.2 = c)).getLast?.map (·.1)

/-- The part of a path after the last `/` (Node `path.basename`, no suffix arg). -/
def basenamePart (p : String) : String :=
  match lastIndexOf p.toList '/' with
  | none => p
  | some i => (p.toList.drop (i + 1)).asString

/-- Node `path.extname`: the extension of the basename including the dot;
empty for dotfiles and extensionless names. -/
def extname (p : String) : String :=
  let b := (basenamePart p).toList
  match lastIndexOf b '.' with
  | none => ""
  | some 0 => ""
  | some i => (b.drop i).asString

/-- The directory part of a path (everything before the last `/`). -/
def dirname (p : String) : String :=
  match lastIndexOf p.toList '/' with
  | none => "."
  | some i => (p.toList.take i).asString

/-- Model of Node `path.join(loc, '..', entry)` as used by
`resolveWebDependency`: resolve `entry` against the directory containing
`loc` (a `package.json` path), normalizing a leading `./` on `entry`. -/
def pathJoinParent (loc entry : String) : String :=
  dirname loc ++ "/" ++ (if strStartsWith entry "./" then strDrop entry 2 else entry)

/-- Lowercase an ASCII string. -/
def strLower (s : String) : String :=
  (s.toList.map Char.toLower).asString

/-- Lexicographic comparison of character lists by code point. -/
def listLe : List Char → List Char → Bool
  | [], _ => true
  | _ :: _, [] => false
  | x :: xs, y :: ys =>
    if x.toNat < y.toNat then true
    else if y.toNat < x.toNat then false
    else listLe xs ys

/-- Lexicographic `≤` on strings by code point (the order used by JS `sort()`
and, on the ASCII specifiers the sources handle, by `localeCompare`). -/
def strLe (a b : String) : Bool :=
  listLe a.toList b.toList

/-- Case-insensitive suffix test (for the `/i` regex flags in the source). -/
def endsWithCI (s suffix : String) : Bool :=
  strEndsWith (strLower s) (strLower suffix)

/-! ## Data model: install targets, manifests, environment -/

/-- `InstallTarget` from `types/snowpack` — one specifier plus usage shape. -/
structure InstallTarget where
  specifier : String
  all : Bool
  default : Bool
  namespaceImport : Bool
  named : List String
deriving DecidableEq, Repr

/-- The fields of a parsed `package.json` that the resolver reads (spec §3:
`exports`, `browser:module`, `module`, `main:esnext`, `browser` (string or
object), `main`, `types`/`typings`; everything else is ignored). -/
structure PackageManifest where
  name : Option String := none
  exports : Option (List (String × JsVal)) := none
  browserModule : Option String := none
  module : Option String := none
  mainEsnext : Option String := none
  browser : Option JsVal := none
  main : Option String := none
  types : Option String := none
  typings : Option String := none
deriving Repr

/-- Result kind of dependency resolution (`DependencyLoc` in the source). -/
inductive DepType where
  | JS
  | ASSET
  | IGNORE
deriving DecidableEq, Repr

structure DependencyLoc where
  type : DepType
  loc : String
deriving DecidableEq, Repr

/-- Errors thrown by `resolveWebDependency` (each constructor corresponds to a
`throw` site in the source). -/
inductive ResolveError where
  /-- `require.resolve` threw (CASE 1, CASE 3 final resolution). -/
  | resolutionFailure (path : String)
  /-- CASE 2: `"exports"` does not include a string entry for the subpath. -/
  | exportMapMismatch (packageName sub : String)
  /-- `Package "<dep>" not found. Have you installed it?` -/
  | notFound (dep : String) (hint : String)
  /-- CASE 5: `@reactesm`/`@pika/react` workaround packages. -/
  | obsoletePackage
  /-- `"<dep>" has unexpected entrypoint` (non-string entrypoint). -/
  | unexpectedEntrypoint (dep : String)
deriving DecidableEq, Repr

/-- An import map / lockfile: `{imports: {specifier: url}}`. -/
structure ImportMap where
  imports : List (String × String)
deriving DecidableEq, Repr

/-- The ambient Node environment and the external libraries the install core
calls into.  `requireResolve` is node-style resolution rooted at `cwd`
(`none` means it throws); `resolveDependencyManifest` is the `util.js`
manifest lookup (a pure filesystem read, returning manifest location and
parsed manifest); `validForNewPackages` is the `validate-npm-package-name`
library; `sanitizePackageName` is the `util.js` filename sanitizer. -/
structure NodeEnv where
  requireResolve : String → Option String
  resolveDependencyManifest : String → Option String × Option PackageManifest
  validForNewPackages : String → Bool
  sanitizePackageName : String → String
  /-- `findUp.sync('node_modules', …)` found a directory. -/
  nodeModulesInstalled : Bool
  /-- `process.versions.pnp` is truthy (Yarn PnP). -/
  pnp : Bool
  /-- the rollup bundle step completes without throwing -/
  rollupSucceeds : Bool
  /-- result of `resolveTargetsFromRemoteCDN` (external collaborator) -/
  cdnResult : Option ImportMap
  /-- install targets produced by `getInstallTargets` (scanning) in `command` -/
  scannedTargets : List InstallTarget

/-! ## `resolveWebDependency` (part_001 lines 166–293) -/

/-- Modelled from the spec: `parsePackageImportSpecifier` lives in `util.js`,
which is not among the provided sources.  The spec (§4.5 step 2) says "Split
specifier into `(packageName, subpath)`", with scoped packages keeping
`@scope/name` together (spec scenario 3: `@scope/pkg/deep/file.js` has
packageName `@scope/pkg`).  An empty remainder is `null` (JS `|| null`). -/
def parsePackageImportSpecifier (imp : String) : String × Option String :=
  let parts := splitString '/' imp
  if strStartsWith imp "@" then
    match parts with
    | scope :: nm :: rest =>
      let sub := String.intercalate "/" rest
      (scope ++ "/" ++ nm, if sub = "" then none else some sub)
    | [scope] => (scope ++ "/undefined", none)
    | [] => (imp, none)
  else
    match parts with
    | nm :: rest =>
      let sub := String.intercalate "/" rest
      (nm, if sub = "" then none else some sub)
    | [] => (imp, none)

/-- CASE 5 guard (lines 237–240): `depManifest.name && (startsWith('@reactesm')
|| startsWith('@pika/react'))`. -/
def isReservedWorkaroundName : Option String → Bool
  | some nm => nm ≠ "" && (strStartsWith nm "@reactesm" || strStartsWith nm "@pika/react")
  | none => false

/-- CASE 2 body (lines 188–207): look the subpath up in the export map and
resolve the entry under `browser || import || default || require || entry`;
a non-string result is a hard error. -/
def exportMapLookup (mloc : String) (exportsList : List (String × JsVal))
    (packageName sub : String) : Except ResolveError DependencyLoc :=
  let exportMapEntry := objGet exportsList ("./" ++ sub)
  let exportMapValue :=
    jsOrO (exportMapEntry.bind (JsVal.getField · "browser"))
      (jsOrO (exportMapEntry.bind (JsVal.getField · "import"))
        (jsOrO (exportMapEntry.bind (JsVal.getField · "default"))
          (jsOrO (exportMapEntry.bind (JsVal.getField · "require"))
            exportMapEntry)))
  match exportMapValue with
  | some (.str s) => .ok ⟨.JS, pathJoinParent mloc s⟩
  | _ => .error (.exportMapMismatch packageName sub)

/-- Lines 248–267: the entry-point chain `browser:module || module ||
main:esnext || browser`, the object-`browser` probe, and the `main` fallback.
A falsy non-object chain value (`""`, `false`) is modelled as `none`: the code
carries it along, but every later use goes through `!foundEntrypoint` or the
`typeof === 'object'` test, where it behaves exactly like `undefined`
(JS `null`, which is `typeof 'object'` and would crash the probe, is outside
the model). -/
def codeSelectEntry (m : PackageManifest) (dep : String) : Option JsVal :=
  let found0 : Option JsVal :=
    jsOrS m.browserModule (jsOrS m.module (jsOrS m.mainEsnext
      (match m.browser with
       | some v => if v.truthy then some v else none
       | none => none)))
  -- `typeof foundEntrypoint === 'object'` probe
  let found1 : Option JsVal :=
    match found0 with
    | some (.obj fs) =>
      jsOrO (objGet fs dep) (jsOrO (objGet fs "./index.js")
        (jsOrO (objGet fs "./index") (jsOrO (objGet fs "./") (objGet fs "."))))
    | v => v
  -- `if (!foundEntrypoint) foundEntrypoint = depManifest.main;`
  match found1 with
  | some v => if v.truthy then some v else m.main.map .str
  | none => m.main.map .str

/-- CASE 3 body (lines 246–292): entry-point selection from the manifest,
implicit `index.js`, node resolution, types-only `IGNORE`. -/
def resolveFromManifest (env : NodeEnv) (dmLoc : String) (m : PackageManifest)
    (dep : String) : Except ResolveError DependencyLoc :=
  let found2 : Option JsVal := codeSelectEntry m dep
  -- `const isImplicitEntrypoint = !foundEntrypoint;`
  let isImplicit : Bool :=
    match found2 with
    | some v => !v.truthy
    | none => true
  let found3 : Option JsVal := if isImplicit then some (.str "index.js") else found2
  match found3 with
  | some (.str entry) =>
    match env.requireResolve (pathJoinParent dmLoc entry) with
    | some loc => .ok ⟨.JS, loc⟩
    | none =>
      if isImplicit && (strTruthy m.types || strTruthy m.typings) then
        .ok ⟨.IGNORE, ""⟩
      else
        .error (.resolutionFailure (pathJoinParent dmLoc entry))
  | _ => .error (.unexpectedEntrypoint dep)

/-- `resolveWebDependency` (part_001 lines 166–293), over the abstract
environment.  The CASE numbering follows the comments in the source. -/
def resolveWebDependency (env : NodeEnv) (dep : String) :
    Except ResolveError DependencyLoc :=
  -- CASE 1: direct file reference (has extension, not a valid package name)
  if extname dep ≠ "" ∧ ¬ env.validForNewPackages dep then
    let isJSFile := extname dep ∈ [".js", ".mjs", ".cjs"]
    match env.requireResolve dep with
    | some loc => .ok ⟨if isJSFile then .JS else .ASSET, loc⟩
    | none => .error (.resolutionFailure dep)
  else
    let (packageName, packageEntrypoint) := parsePackageImportSpecifier dep
    -- CASE 2: package manifest has `exports` (only when there is a subpath)
    match packageEntrypoint with
    | some sub =>
      let (mloc?, m?) := env.resolveDependencyManifest packageName
      match mloc?, m? with
      | some mloc, some m =>
        match m.exports with
        | some exportsList => exportMapLookup mloc exportsList packageName sub
        | none => resolveTail env dep
      | _, _ => resolveTail env dep
    | none => resolveTail env dep
where
  /-- lines 210–292: CASE 3/4/5 — manifest under `dep`, raw fallback,
  workaround packages, entry-point selection. -/
  resolveTail (env : NodeEnv) (dep : String) : Except ResolveError DependencyLoc :=
    let (dmLoc?, dm?) := env.resolveDependencyManifest dep
    match dm? with
    | none =>
      -- CASE 4: try to load the file directly
      match env.requireResolve dep with
      | some loc => .ok ⟨.JS, loc⟩
      | none => .error (.notFound dep (dmLoc?.getD ""))
    | some dm =>
      match dmLoc? with
      | none => .error (.notFound dep "")
      | some dmLoc =>
        -- CASE 5: React workaround packages
        if isReservedWorkaroundName dm.name then
          .error .obsoletePackage
        else
          resolveFromManifest env dmLoc dm dep

/-! ## Configuration and aliases -/

/-- Kind of an alias target (spec §3 `AliasEntry`: package / path / url). -/
inductive AliasKind where
  | package
  | path
  | url
deriving DecidableEq, Repr

/-- Modelled from the spec: alias-value classification lives in `util.js`
(`isPackageAliasEntry` and friends), which is not among the provided sources.
The spec (§3, §6) classifies each alias value as package / path / url: a URL
contains `://`, a path starts with `./`, `../` or `/`, anything else is a
package specifier. -/
def aliasKindOf (toVal : String) : AliasKind :=
  if containsSubstr toVal "://" then .url
  else if strStartsWith toVal "./" || strStartsWith toVal "../" || strStartsWith toVal "/" then .path
  else .package

/-- The slice of `SnowpackConfig` the install core reads
(`installOptions` fields are flattened into this record). -/
structure SnowpackConfig where
  webDependencies : Option (List (String × String)) := none
  /-- the `alias` map as `(from, to)` pairs (source field `alias`; renamed
  because `alias` is a Lean command keyword) -/
  aliasMap : List (String × String) := []
  /-- `installOptions.externalPackage` -/
  externalPackage : List String := []
deriving Repr

/-- Modelled from the spec: `findMatchingAliasEntry` lives in `util.js`, which
is not among the provided sources.  The spec (§4.4) says: "if an alias entry
matches … replace the specifier with the alias target"; an entry matches when
its key equals the specifier.  Returns the entry's kind and target. -/
def findMatchingAliasEntry (config : SnowpackConfig) (specifier : String) :
    Option (AliasKind × String) :=
  (config.aliasMap.find? (·.1 = specifier)).map (fun p => (aliasKindOf p.2, p.2))

/-! ## Import scanner (`scan-imports.ts`) -/

/-- An `es-module-lexer` `ImportSpecifier`: statement span `ss..se`, specifier
(or dynamic-argument) span `s..e`, and the dynamic flag `d`
(`-2` = `import.meta`, `-1` = static, `≥ 0` = dynamic). -/
structure ImportSpec where
  s : Nat
  e : Nat
  ss : Nat
  se : Nat
  d : Int
deriving DecidableEq, Repr

/-- single quote, written by code point to keep the source ASCII-clean -/
def squote : Char := Char.ofNat 39

def isQuote (c : Char) : Bool := c = squote || c = '"'

/-- JS regex `\s` (the ASCII part; the sources only meet ASCII whitespace). -/
def isJsWs (c : Char) : Bool :=
  c = ' ' || c = '\t' || c = '\n' || c = '\r' || c = Char.ofNat 11 || c = Char.ofNat 12

/-- regex `\w` = `[A-Za-z0-9_]` -/
def isWordChar (c : Char) : Bool :=
  c.isAlphanum || c = '_'

/-- JS `String.prototype.trim` (ASCII whitespace). -/
def trimJs (l : List Char) : List Char :=
  ((l.dropWhile isJsWs).reverse.dropWhile isJsWs).reverse

/-- One line matched against `^\s*['"](.*)['"]\s*$` (greedy `.*`): after
trimming surrounding whitespace the line must start and end with a quote
character, with the capture being everything between the outermost quotes. -/
def lineQuotedCapture (l : List Char) : Option String :=
  match trimJs l with
  | c :: rest =>
    match rest.getLast? with
    | some c' => if isQuote c ∧ isQuote c' then some (rest.dropLast).asString else none
    | none => none
  | [] => none

/-- JS `str.match(/^\s*['"](.*)['"]\s*$/m)`: with the `m` flag the anchors bind
to line boundaries, so the first line that is a quoted literal (up to
whitespace) wins. -/
def jsMatchQuoted (s : String) : Option String :=
  (splitCh '\n' s.toList).findSome? lineQuotedCapture

/-- `getWebModuleSpecifierFromCode` (scan-imports.ts lines 53–66). -/
def getWebModuleSpecifierFromCode (code : String) (imp : ImportSpec) : Option String :=
  -- import.meta: we can ignore
  if imp.d = -2 then none
  -- Static imports: easy to parse
  else if imp.d = -1 then some (strSub code imp.s imp.e)
  -- Dynamic imports: only string literals are supported
  else jsMatchQuoted (strSub code imp.s imp.e)

/-- `BARE_SPECIFIER_REGEX = /^[@\w](?!.*(:\/\/))/` -/
def testBareSpecifier (s : String) : Bool :=
  match s.toList with
  | [] => false
  | c :: rest => (c = '@' || isWordChar c) && ¬ listInfix "://".toList rest

/-- `removeSpecifierQueryString` (lines 39–45). -/
def removeSpecifierQueryString (specifier : String) : String :=
  match specifier.toList.findIdx? (· = '?') with
  | some i => (specifier.toList.take i).asString
  | none => specifier

/-- `stripJsExtension`: `dep.replace(/\.m?js$/i, '')`. -/
def stripJsExtension (dep : String) : String :=
  if endsWithCI dep ".mjs" then (dep.toList.rdrop 4).asString
  else if endsWithCI dep ".js" then (dep.toList.rdrop 3).asString
  else dep

/-- Index of the first occurrence of `pat` in `l`. -/
def infixIndex (pat : List Char) : List Char → Option Nat
  | [] => if pat.isEmpty then some 0 else none
  | l@(_ :: t) =>
    if pat.isPrefixOf l then some 0
    else (infixIndex pat t).map (· + 1)

/-- `parseWebModuleSpecifier` (lines 75–105): bare specifiers pass through;
otherwise the `web_modules/` segment is looked for; `validForNewPackages` is
the external `validate-npm-package-name` library. -/
def parseWebModuleSpecifier (valid : String → Bool) :
    Option String → Option String
  | none => none
  | some specifier =>
    if testBareSpecifier specifier then some specifier
    else
      let cleaned := removeSpecifierQueryString specifier
      match infixIndex "web_modules/".toList cleaned.toList with
      | none => none
      | some i =>
        let resolvedSpecifier := (cleaned.toList.drop (i + "web_modules/".length)).asString
        let noExt := stripJsExtension resolvedSpecifier
        if valid noExt then some noExt else some resolvedSpecifier

/-- Does `/^import\s+type/` match (anchored prefix)? -/
def testImportTypePrefix (stmt : List Char) : Bool :=
  match stmt.dropPrefix? "import".toList with
  | some r =>
    let ws := r.takeWhile isJsWs
    ¬ ws.isEmpty && "type".toList.isPrefixOf (r.drop ws.length)
  | none => false

/-- `DEFAULT_IMPORT_REGEX = /import\s+(\w)+(,\s\{[\w\s]*\})?\s+from/s` matched
at the head of `l`.  Because `\w`, `\s` and the literal delimiters are
pairwise disjoint, the regex engine's backtracking never changes the greedy
runs, except that the optional group may be skipped; both alternatives are
tried. -/
def matchDefaultAt (l : List Char) : Bool :=
  match l.dropPrefix? "import".toList with
  | none => false
  | some r1 =>
    let ws1 := r1.takeWhile isJsWs
    if ws1.isEmpty then false
    else
      let r2 := r1.drop ws1.length
      let w := r2.takeWhile isWordChar
      if w.isEmpty then false
      else
        let r3 := r2.drop w.length
        let afterGroup : Option (List Char) :=
          match r3 with
          | ',' :: c :: rest =>
            if isJsWs c then
              match rest with
              | '{' :: tail =>
                let body := tail.takeWhile (fun ch => isWordChar ch || isJsWs ch)
                match tail.drop body.length with
                | '}' :: rest' => some rest'
                | _ => none
              | _ => none
            else none
          | _ => none
        let close : List Char → Bool := fun r =>
          let ws2 := r.takeWhile isJsWs
          ¬ ws2.isEmpty && "from".toList.isPrefixOf (r.drop ws2.length)
        (match afterGroup with
         | some rest' => close rest'
         | none => false) || close r3

/-- `DEFAULT_IMPORT_REGEX.test(stmt)`: unanchored, so every start position is
tried. -/
def testDefaultImport : List Char → Bool
  | [] => false
  | l@(_ :: t) => matchDefaultAt l || testDefaultImport t

/-- `HAS_NAMED_IMPORTS_REGEX = /^[\w\s\,]*\{(.*)\}/s`: a leading run of word
characters, whitespace and commas, then `{`, then a greedy capture up to the
last `}` of the statement (`/s` lets it span lines). -/
def hasNamedCapture (stmt : List Char) : Option (List Char) :=
  let pre := stmt.takeWhile (fun c => isWordChar c || isJsWs c || c = ',')
  match stmt.drop pre.length with
  | '{' :: tail =>
    match lastIndexOf tail '}' with
    | some i => some (tail.take i)
    | none => none
  | _ => none

/-- Does `\s+as\s+` match starting exactly here?  (`\s+` is greedy, and since
`\s` and `a` are disjoint no backtracking arises.) -/
def matchAsFrom (l : List Char) : Bool :=
  let ws := l.takeWhile isJsWs
  if ws.isEmpty then false
  else
    match l.drop ws.length with
    | 'a' :: 's' :: c :: _ => isJsWs c
    | _ => false

/-- `name.replace(STRIP_AS, '')` with `STRIP_AS = /\s+as\s+.*/`: from the
leftmost match of `\s+as\s+`, everything up to the end of that line is
removed (`.` does not cross `\n` without the `s` flag). -/
def stripAsList : List Char → List Char
  | [] => []
  | c :: cs =>
    if matchAsFrom (c :: cs) then (c :: cs).dropWhile (· ≠ '\n')
    else c :: stripAsList cs

/-- `parseImportStatement` (lines 113–145), with the lexer result supplied as
`imp` and `validForNewPackages` abstracted. -/
def parseImportStatement (valid : String → Bool) (code : String)
    (imp : ImportSpec) : Option InstallTarget :=
  match parseWebModuleSpecifier valid (getWebModuleSpecifierFromCode code imp) with
  | none => none
  | some webModuleSpecifier =>
    let stmt := (strSub code imp.ss imp.se).toList
    -- skip `import type …`
    if testImportTypePrefix stmt then none
    else
      let isDynamicImport := imp.d > -1
      let hasDefaultImport := ¬ isDynamicImport && testDefaultImport stmt
      let hasNamespaceImport := ¬ isDynamicImport && stmt.any (· = '*')
      let namedImports :=
        ((hasNamedCapture stmt).getD []
          |> splitCh ','
          |>.map (fun nm => (trimJs (stripAsList nm)).asString)
          |>.filter (· ≠ ""))
      some {
        specifier := webModuleSpecifier
        all := isDynamicImport ||
          (¬ hasDefaultImport && ¬ hasNamespaceImport && namedImports.isEmpty)
        default := hasDefaultImport
        namespaceImport := hasNamespaceImport
        named := namedImports
      }

/-- `/[./]macro(\.js)?$/` — Babel macros are not install targets. -/
def testMacroSpecifier (s : String) : Bool :=
  strEndsWith s ".macro" || strEndsWith s "/macro" ||
  strEndsWith s ".macro.js" || strEndsWith s "/macro.js"

/-- A loaded source file together with the `es-module-lexer` output for its
contents (the lexer is an external collaborator). -/
structure ScannedFile where
  contents : String
  imports : List ImportSpec

/-- `parseCodeForInstallTargets` (lines 177–212) with the lexer result
supplied (the two-phase parse only decides which text is handed to the lexer;
its output is `imports`). -/
def parseCodeForInstallTargets (valid : String → Bool) (f : ScannedFile) :
    List InstallTarget :=
  ((f.imports.filterMap (parseImportStatement valid f.contents)).filter
    (fun imp => ¬ testMacroSpecifier imp.specifier))

/-- Stable insertion of a target into a list sorted by specifier (models the
JS stable `Array.sort` with a `localeCompare` comparator; the sources only
compare ASCII specifiers, where `localeCompare` agrees with `≤`). -/
def insertTargetSorted (t : InstallTarget) : List InstallTarget → List InstallTarget
  | [] => [t]
  | u :: us =>
    if strLe t.specifier u.specifier then t :: u :: us else u :: insertTargetSorted t us

def sortTargets (l : List InstallTarget) : List InstallTarget :=
  l.foldr insertTargetSorted []

/-- The alias filter inside `scanImportsFromFiles` (lines 348–351): drop a
target whose specifier matches a non-package alias entry. -/
def aliasFilterOk (config : SnowpackConfig) (t : InstallTarget) : Bool :=
  match findMatchingAliasEntry config t.specifier with
  | none => true
  | some (kind, _) => kind = .package

/-- `scanImportsFromFiles` (lines 341–353): parse every file, filter by the
alias rule, and sort by specifier.  Note: no merging of targets happens here —
targets sharing a specifier stay separate records. -/
def scanImportsFromFiles (valid : String → Bool) (config : SnowpackConfig)
    (loadedFiles : List ScannedFile) : List InstallTarget :=
  sortTargets (((loadedFiles.map (parseCodeForInstallTargets valid)).flatten).filter
    (aliasFilterOk config))

/-! ## `install` (part_001 lines 311–597) -/

/-- `isImportOfPackage` (lines 117–120): is `importUrl` under `packageName`? -/
def isImportOfPackage (importUrl packageName : String) : Bool :=
  packageName = importUrl || strStartsWith importUrl (packageName ++ "/")

/-- `getWebDependencyName` (lines 126–130): valid top-level package names
ending in `.js` keep the letters (`tippy.js → tippyjs`); otherwise the
`.js`/`.mjs` extension is stripped. -/
def getWebDependencyName (valid : String → Bool) (dep : String) : String :=
  if valid dep then
    (if endsWithCI dep ".js" then (dep.toList.rdrop 3).asString ++ "js" else dep)
  else stripJsExtension dep

/-- JS object read `m[k]`. -/
def assocGet (m : List (String × String)) (k : String) : Option String :=
  (m.find? (·.1 = k)).map (·.2)

/-- JS object write `m[k] = v`: overwrite in place, or append a new key. -/
def assocSet (m : List (String × String)) (k v : String) : List (String × String) :=
  if m.any (·.1 = k) then m.map (fun p => if p.1 = k then (k, v) else p)
  else m ++ [(k, v)]

def assocKeys (m : List (String × String)) : List String := m.map (·.1)

/-- Insertion into a `≤`-sorted list of strings. -/
def insertSorted (s : String) : List String → List String
  | [] => [s]
  | t :: ts => if strLe s t then s :: t :: ts else t :: insertSorted s ts

/-- JS `Array.prototype.sort()` on strings (lexicographic). -/
def sortStrings (l : List String) : List String :=
  l.foldr insertSorted []

/-- `new Set(array)` iteration: keep the first occurrence of each element. -/
def dedupFirst : List String → List String
  | [] => []
  | x :: xs => x :: (dedupFirst xs).filter (· ≠ x)

/-- The alias rewriting step of the aggregation (lines 352–356). -/
def aliasRewrite (config : SnowpackConfig) (specifier : String) : String :=
  match findMatchingAliasEntry config specifier with
  | some (.package, toVal) => toVal
  | _ => specifier

/-- `allInstallSpecifiers` (lines 344–358): drop externalized targets, map to
specifiers, rewrite package aliases, sort, and deduplicate (`new Set`). -/
def allInstallSpecifiers (config : SnowpackConfig)
    (installTargets : List InstallTarget) : List String :=
  dedupFirst (sortStrings
    (((installTargets.filter (fun dep =>
        !(config.externalPackage.any (isImportOfPackage dep.specifier)))).map
      (·.specifier)).map (aliasRewrite config)))

/-- The `external` callback handed to rollup (line 459). -/
def rollupExternalTest (config : SnowpackConfig) (id : String) : Bool :=
  config.externalPackage.any (isImportOfPackage id)

/-- `lockfile && lockfile.imports[installSpecifier]` is truthy. -/
def lockfileHit (lockfile : Option ImportMap) (s : String) : Bool :=
  match lockfile with
  | some lf => strTruthy (assocGet lf.imports s)
  | none => false

/-- the value `lockfile.imports[s]` read in the lockfile branch (line 386) -/
def lockfileUrl (lockfile : Option ImportMap) (s : String) : String :=
  match lockfile with
  | some lf => (assocGet lf.imports s).getD ""
  | none => ""

/-- The three maps the install loop accumulates (lines 364–374). -/
structure InstallState where
  installEntrypoints : List (String × String) := []
  assetEntrypoints : List (String × String) := []
  importMapImports : List (String × String) := []
deriving DecidableEq, Repr

/-- One iteration of the install loop (lines 381–430) for one specifier:
lockfile entries win outright; otherwise the specifier is resolved and
dispatched on its kind, with alias keys expanded for JS targets. -/
def installStep (env : NodeEnv) (config : SnowpackConfig)
    (lockfile : Option ImportMap) (st : InstallState) (installSpecifier : String) :
    Except ResolveError InstallState :=
  let targetName := getWebDependencyName env.validForNewPackages installSpecifier
  let proxiedName := env.sanitizePackageName targetName
  if lockfileHit lockfile installSpecifier then
    -- all good if already imported: the lockfile URL becomes the entrypoint
    let url := lockfileUrl lockfile installSpecifier
    .ok { st with
      installEntrypoints := assocSet st.installEntrypoints targetName url
      importMapImports :=
        assocSet st.importMapImports installSpecifier ("./" ++ proxiedName ++ ".js") }
  else
    match resolveWebDependency env installSpecifier with
    | .error e => .error e
    | .ok ⟨.JS, targetLoc⟩ =>
      let withSelf :=
        assocSet st.importMapImports installSpecifier ("./" ++ proxiedName ++ ".js")
      -- expand to all aliases pointing at this specifier (lines 400–404)
      let withAliases :=
        (config.aliasMap.filter (·.2 = installSpecifier)).foldl
          (fun m p => assocSet m p.1 ("./" ++ targetName ++ ".js")) withSelf
      .ok { st with
        installEntrypoints := assocSet st.installEntrypoints targetName targetLoc
        importMapImports := withAliases }
    | .ok ⟨.ASSET, targetLoc⟩ =>
      .ok { st with
        assetEntrypoints := assocSet st.assetEntrypoints targetName targetLoc
        importMapImports :=
          assocSet st.importMapImports installSpecifier ("./" ++ proxiedName) }
    | .ok ⟨.IGNORE, _⟩ => .ok st

/-- The install loop over all specifiers; the first resolution error aborts
the run (`skipFailures` is `false` in the source). -/
def installLoop (env : NodeEnv) (config : SnowpackConfig)
    (lockfile : Option ImportMap) : List String → InstallState →
    Except ResolveError InstallState
  | [], st => .ok st
  | s :: ss, st =>
    match installStep env config lockfile st s with
    | .ok st' => installLoop env config lockfile ss st'
    | .error e => .error e

/-- Observable file-system effects of one invocation, in order. -/
inductive Effect where
  /-- `getInstallTargets` → `scanImports`: mount-root enumeration + scanning -/
  | enumerateFiles
  /-- `rimraf.sync(dest)` in `run` -/
  | removeOutputDir
  /-- `packageBundle.write(outputOptions)` — rollup emits the bundle -/
  | bundleWrite
  /-- `writeLockfile(path.join(destLoc, IMPORT_MAP_FILE), importMap)` -/
  | writeImportMapFile
  /-- `fs.copyFileSync` of one asset -/
  | copyAsset (name : String)
deriving DecidableEq, Repr

/-- Result of `install` (`InstallResult` in the source, plus the maps and the
effect trace for inspection). -/
structure InstallResult where
  success : Bool
  importMap : Option (List (String × String))
  installEntrypoints : List (String × String)
  assetEntrypoints : List (String × String)
  effects : List Effect
deriving DecidableEq, Repr

/-- `FAILED_INSTALL_RETURN` (lines 303–306). -/
def failedInstall : InstallResult :=
  { success := false, importMap := none, installEntrypoints := [],
    assetEntrypoints := [], effects := [] }

/-- `install` (lines 311–597): the node_modules guard, the aggregation, the
install loop, the no-entrypoints early return (lines 431–444), the rollup
invocation (lines 559–586), the import-map write (line 588) and the asset
copies (lines 590–594). -/
def install (env : NodeEnv) (config : SnowpackConfig)
    (lockfile : Option ImportMap) (installTargets : List InstallTarget) :
    InstallResult :=
  -- `if (!webDependencies && !(process.versions as any).pnp && !nodeModulesInstalled)`
  if config.webDependencies.isNone ∧ ¬ env.pnp ∧ ¬ env.nodeModulesInstalled then
    failedInstall
  else
    match installLoop env config lockfile
        (allInstallSpecifiers config installTargets) {} with
    | .error _ => failedInstall
    | .ok st =>
      -- nothing to install → success with the import map built so far
      if st.installEntrypoints.isEmpty ∧ st.assetEntrypoints.isEmpty then
        { success := true, importMap := some st.importMapImports,
          installEntrypoints := st.installEntrypoints,
          assetEntrypoints := st.assetEntrypoints, effects := [] }
      else if ¬ st.installEntrypoints.isEmpty ∧ ¬ env.rollupSucceeds then
        failedInstall
      else
        { success := true, importMap := some st.importMapImports,
          installEntrypoints := st.installEntrypoints,
          assetEntrypoints := st.assetEntrypoints,
          effects :=
            (if st.installEntrypoints.isEmpty then [] else [.bundleWrite]) ++
            [.writeImportMapFile] ++
            st.assetEntrypoints.map (fun p => .copyAsset p.1) }

/-- Result of `run` (`InstallRunResult`, minus the cosmetic spinner state). -/
structure RunResult where
  success : Bool
  importMap : Option (List (String × String))
  newLockfile : Option ImportMap
  effects : List Effect
deriving DecidableEq, Repr

/-- Lines 709–714: the CDN step — the new lockfile is the CDN result exactly
when a non-empty `webDependencies` manifest is declared
(`resolveTargetsFromRemoteCDN(lockfile, config)` is an external collaborator;
its outcome is `env.cdnResult`). -/
def newLockfileFor (env : NodeEnv) (config : SnowpackConfig) : Option ImportMap :=
  if (match config.webDependencies with
      | some l => ¬ l.isEmpty
      | none => false : Bool) then env.cdnResult else none

/-- `run` (lines 681–755): empty-target early return, the CDN step,
`rimraf.sync(dest)`, then `install` (the lockfile argument only feeds the
external CDN step, hence unused in the model). -/
def run (env : NodeEnv) (config : SnowpackConfig) (_lockfile : Option ImportMap)
    (installTargets : List InstallTarget) : RunResult :=
  if installTargets.isEmpty then
    { success := true, importMap := some [], newLockfile := none, effects := [] }
  else
    let newLockfile : Option ImportMap := newLockfileFor env config
    let r := install env config newLockfile installTargets
    { success := r.success, importMap := r.importMap, newLockfile := newLockfile,
      effects := .removeOutputDir :: r.effects }

structure CommandResult where
  success : Bool
  effects : List Effect
deriving DecidableEq, Repr

/-- `command` (lines 645–663): `getInstallTargets` (which enumerates and scans
the mounted files — `env.scannedTargets` is its result) runs first; only then
does `run` / `install` execute. -/
def command (env : NodeEnv) (config : SnowpackConfig)
    (lockfile : Option ImportMap) : CommandResult :=
  let installTargets := env.scannedTargets
  if installTargets.isEmpty then
    { success := true, effects := [.enumerateFiles] }
  else
    let r := run env config lockfile installTargets
    { success := r.success, effects := .enumerateFiles :: r.effects }

/-! ## Specification-side definitions

These follow the wording of the spec/claims (not the code) and are used only
on the right-hand side of refinement theorems. -/

/-- Claim C2's entry-point selection, written from the spec's words: "the
priority `browser:module`, then `module`, then `main:esnext`, then `browser`,
then `main`; when `browser` is an object it probes the keys specifier,
`./index.js`, `./index`, `./`, `.` in that order". -/
def specSelectEntry (m : PackageManifest) (dep : String) : Option String :=
  match m.browserModule with
  | some s => some s
  | none =>
    match m.module with
    | some s => some s
    | none =>
      match m.mainEsnext with
      | some s => some s
      | none =>
        match (match m.browser with
               | some (.str s) => some s
               | some (.obj fs) =>
                 [dep, "./index.js", "./index", "./", "."].findSome? (fun k =>
                   match objGet fs k with
                   | some (.str s) => some s
                   | _ => none)
               | _ => none) with
        | some s => some s
        | none => m.main

/-- Claim C2's manifest-lookup behaviour, written from the spec's words: take
the selected entry (or the implicit `index.js`), node-resolve it under the
manifest directory; when resolution of the implicit index fails and the
manifest carries `types` or `typings`, the result kind is `Ignore`, otherwise
the resolution error propagates. -/
def specManifestLookup (env : NodeEnv) (dmLoc : String) (m : PackageManifest)
    (dep : String) : Except ResolveError DependencyLoc :=
  match specSelectEntry m dep with
  | some entry =>
    match env.requireResolve (pathJoinParent dmLoc entry) with
    | some loc => .ok ⟨.JS, loc⟩
    | none => .error (.resolutionFailure (pathJoinParent dmLoc entry))
  | none =>
    match env.requireResolve (pathJoinParent dmLoc "index.js") with
    | some loc => .ok ⟨.JS, loc⟩
    | none =>
      if strTruthy m.types || strTruthy m.typings then .ok ⟨.IGNORE, ""⟩
      else .error (.resolutionFailure (pathJoinParent dmLoc "index.js"))

/-- Claim C3's condition selection, written from the spec's words: "the
condition priority `browser`, then `import`, then `default`, then `require`";
a plain value stands for itself. -/
def specCondSelect (entry : JsVal) : JsVal :=
  match entry with
  | .obj fs =>
    (match objGet fs "browser" with
     | some v => some v
     | none =>
       match objGet fs "import" with
       | some v => some v
       | none =>
         match objGet fs "default" with
         | some v => some v
         | none => objGet fs "require").getD entry
  | v => v

/-! ## Regularity predicates

JS `||` selection skips *falsy* values while the spec's "priority" wording
selects *present* values; the two agree on manifests whose relevant fields,
when present, are truthy.  These predicates carve out that (universal in
practice) regime. -/

def optStrRegular : Option String → Bool
  | none => true
  | some s => s ≠ ""

/-- The value at a probed `browser`-object key is absent or a nonempty string. -/
def probeValRegular : Option JsVal → Bool
  | none => true
  | some (.str s) => s ≠ ""
  | some _ => false

def browserRegular (dep : String) : Option JsVal → Bool
  | none => true
  | some (.str s) => s ≠ ""
  | some (.obj fs) =>
    probeValRegular (objGet fs dep) && probeValRegular (objGet fs "./index.js") &&
    probeValRegular (objGet fs "./index") && probeValRegular (objGet fs "./") &&
    probeValRegular (objGet fs ".")
  | some (.other _) => false

/-- The fields read by the CASE 3 entry-point selection are absent or truthy
(and `browser`, if an object, probes to absent-or-nonempty-string values). -/
def manifestRegularB (m : PackageManifest) (dep : String) : Bool :=
  optStrRegular m.browserModule && optStrRegular m.module &&
  optStrRegular m.mainEsnext && optStrRegular m.main && browserRegular dep m.browser

/-- The four condition fields of an export-map entry are, when present,
truthy (for plain entries this holds vacuously). -/
def entryRegular : JsVal → Bool
  | .obj fs =>
    (match objGet fs "browser" with | none => true | some v => v.truthy) &&
    (match objGet fs "import" with | none => true | some v => v.truthy) &&
    (match objGet fs "default" with | none => true | some v => v.truthy) &&
    (match objGet fs "require" with | none => true | some v => v.truthy)
  | _ => true

/-! ## Classification of a processed specifier (for the import-map key set) -/

/-- The install loop writes an import-map key for `s` iff `s` is serviced by
the lockfile or resolves to `JS` or `ASSET`. -/
def specifierEmitted (env : NodeEnv) (lockfile : Option ImportMap) (s : String) : Bool :=
  lockfileHit lockfile s ||
    (match resolveWebDependency env s with
     | .ok ⟨.JS, _⟩ => true
     | .ok ⟨.ASSET, _⟩ => true
     | _ => false)

/-- "Resolved as Ignore": not serviced by the lockfile and resolving to
`IGNORE` (lockfile-keyed specifiers are never resolved at all). -/
def ignoredTarget (env : NodeEnv) (lockfile : Option ImportMap) (s : String) : Bool :=
  !lockfileHit lockfile s &&
    (match resolveWebDependency env s with
     | .ok ⟨.IGNORE, _⟩ => true
     | _ => false)

/-- The install loop survives `s` without throwing. -/
def stepNoError (env : NodeEnv) (lockfile : Option ImportMap) (s : String) : Bool :=
  lockfileHit lockfile s ||
    (match resolveWebDependency env s with
     | .ok _ => true
     | .error _ => false)

/-! ## Concrete fixtures for witnesses and counterexamples -/

/-- A stand-in for `validate-npm-package-name` adequate for the fixture
specifiers below: names containing `/` or `.` are not valid top-level package
names, the rest are. -/
def validSimple : String → Bool := fun d =>
  ¬ containsSubstr d "/" && ¬ containsSubstr d "."

/-- An environment whose resolver finds nothing at all. -/
def envNoResolve : NodeEnv where
  requireResolve := fun _ => none
  resolveDependencyManifest := fun _ => (none, none)
  validForNewPackages := validSimple
  sanitizePackageName := id
  nodeModulesInstalled := true
  pnp := false
  rollupSucceeds := true
  cdnResult := none
  scannedTargets := []

def tgtReact : InstallTarget :=
  { specifier := "react", all := false, default := true, namespaceImport := false,
    named := [] }

def lfReact : ImportMap := { imports := [("react", "./react.v17.js")] }

def lodashManifest : PackageManifest := { module := some "./lodash.js" }

/-- `node_modules` containing only `lodash-es` with a `module` entry. -/
def envLodash : NodeEnv :=
  { envNoResolve with
    requireResolve := fun p =>
      if p = "/n/lodash-es/lodash.js" then some "/n/lodash-es/lodash.js" else none
    resolveDependencyManifest := fun d =>
      if d = "lodash-es" then (some "/n/lodash-es/package.json", some lodashManifest)
      else (none, none) }

def tgtLodash : InstallTarget :=
  { specifier := "lodash-es", all := true, default := false,
    namespaceImport := false, named := [] }

/-- A manifest with a conditional export map for `./sub`. -/
def pkgExportsManifest : PackageManifest :=
  { exports := some [("./sub", JsVal.obj [("browser", JsVal.str "./b.js")])] }

def envPkg : NodeEnv :=
  { envNoResolve with
    resolveDependencyManifest := fun d =>
      if d = "pkg" then (some "/n/pkg/package.json", some pkgExportsManifest)
      else (none, none) }

def ext1Manifest : PackageManifest := { module := some "./index.js" }

/-- `node_modules` containing `ext1`. -/
def envExt1 : NodeEnv :=
  { envNoResolve with
    requireResolve := fun p =>
      if p = "/n/ext1/index.js" then some "/n/ext1/index.js" else none
    resolveDependencyManifest := fun d =>
      if d = "ext1" then (some "/n/ext1/package.json", some ext1Manifest)
      else (none, none) }

/-- `ext1` externalized while the package alias `aaa → ext1` re-introduces it. -/
def cfgExt1 : SnowpackConfig :=
  { aliasMap := [("aaa", "ext1")], externalPackage := ["ext1"] }

def tgtExt1 : InstallTarget :=
  { specifier := "ext1", all := true, default := false, namespaceImport := false,
    named := [] }

def tgtAaa : InstallTarget :=
  { specifier := "aaa", all := true, default := false, namespaceImport := false,
    named := [] }

def cfgExtOnly : SnowpackConfig := { externalPackage := ["ext1"] }

def bbbManifest : PackageManifest := { module := some "./index.js" }

/-- `node_modules` containing `bbb`. -/
def envBbb : NodeEnv :=
  { envNoResolve with
    requireResolve := fun p =>
      if p = "/n/bbb/index.js" then some "/n/bbb/index.js" else none
    resolveDependencyManifest := fun d =>
      if d = "bbb" then (some "/n/bbb/package.json", some bbbManifest)
      else (none, none) }

/-- A package alias `aaa → bbb` and nothing else. -/
def cfgAliasBbb : SnowpackConfig := { aliasMap := [("aaa", "bbb")] }

def cfgFooExt : SnowpackConfig := { externalPackage := ["foo"] }

def tgtFoo : InstallTarget :=
  { specifier := "foo", all := true, default := false, namespaceImport := false,
    named := [] }

/-- `import React from "react";` + `import {useState} from "react";`
(spec §8 scenario 1). -/
def reactCode : String :=
  "import React from \"react\";\nimport {useState} from \"react\";"

/-- lexer output for the first statement of `reactCode` -/
def impReactA : ImportSpec := { s := 19, e := 24, ss := 0, se := 25, d := -1 }

/-- lexer output for the second statement of `reactCode` -/
def impReactB : ImportSpec := { s := 51, e := 56, ss := 27, se := 57, d := -1 }

def fileReact : ScannedFile := { contents := reactCode, imports := [impReactA, impReactB] }

/-- `import(`…`)` with a template-literal argument (no interpolation). -/
def tmplCode : String := "import(`./a.js`)"

/-- lexer output for `tmplCode`: dynamic import, argument span 7–15 -/
def impTmpl : ImportSpec := { s := 7, e := 15, ss := 0, se := 16, d := 6 }

/-- the same dynamic import with a quoted argument -/
def quotCode : String := "import(\"./a.js\")"

def impQuot : ImportSpec := { s := 7, e := 15, ss := 0, se := 16, d := 6 }

/-- no `node_modules`, no PnP, one scanned target -/
def envNoNM : NodeEnv :=
  { envNoResolve with nodeModulesInstalled := false, scannedTargets := [tgtReact] }

/-! # Theorems -/

/-! ## Generic helper lemmas -/

theorem mem_assocKeys_assocSet {m : List (String × String)} {k v a : String} :
    a ∈ assocKeys (assocSet m k v) ↔ a = k ∨ a ∈ assocKeys m := by
  unfold assocSet assocKeys
  by_cases h : m.any (·.1 = k)
  · rw [if_pos h]
    rw [List.any_eq_true] at h
    obtain ⟨p, hp, hpk⟩ := h
    simp only [decide_eq_true_eq] at hpk
    constructor
    · rintro hmem
      rw [List.mem_map] at hmem
      obtain ⟨q, hq, hqa⟩ := hmem
      rw [List.mem_map] at hq
      obtain ⟨r, hr, hrq⟩ := hq
      by_cases hrk : r.1 = k
      · rw [if_pos hrk] at hrq
        left; rw [← hqa, ← hrq]
      · rw [if_neg hrk] at hrq
        right; rw [← hqa, ← hrq]; exact List.mem_map_of_mem _ hr
    · rintro (rfl | hmem)
      · rw [List.mem_map]
        refine ⟨(a, v), ?_, rfl⟩
        rw [List.mem_map]
        exact ⟨p, hp, by rw [if_pos hpk]⟩
      · rw [List.mem_map] at hmem ⊢
        obtain ⟨r, hr, hrq⟩ := hmem
        by_cases hrk : r.1 = k
        · exact ⟨(k, v), List.mem_map.2 ⟨r, hr, by rw [if_pos hrk]⟩, by simp [← hrq, hrk]⟩
        · exact ⟨r, List.mem_map.2 ⟨r, hr, by rw [if_neg hrk]⟩, hrq⟩
  · rw [if_neg h]
    simp only [List.map_append, List.mem_append, List.map_cons, List.map_nil,
      List.mem_singleton]
    tauto

theorem find?_append_key {k v : String} :
    ∀ (l : List (String × String)), (∀ p ∈ l, ¬ (p.1 = k)) →
      (l ++ [(k, v)]).find? (fun q => q.1 = k) = some (k, v)
  | [], _ => by simp [List.find?]
  | x :: xs, hl => by
    simp only [List.cons_append, List.find?]
    rw [decide_eq_false (hl x (List.mem_cons_self x xs))]
    exact find?_append_key xs (fun p hp => hl p (List.mem_cons_of_mem x hp))

theorem assocGet_assocSet_self {m : List (String × String)} {k v : String} :
    assocGet (assocSet m k v) k = some v := by
  unfold assocGet assocSet
  by_cases h : m.any (·.1 = k)
  · rw [if_pos h]
    rw [List.any_eq_true] at h
    obtain ⟨p, hp, hpk⟩ := h
    simp only [decide_eq_true_eq] at hpk
    have hfind : (List.map (fun p => if p.1 = k then (k, v) else p) m).find?
        (fun q => q.1 = k) = some (k, v) := by
      induction m with
      | nil => cases hp
      | cons x xs ih =>
        by_cases hx : x.1 = k
        · simp [List.find?, hx]
        · cases hp with
          | head => exact absurd hpk hx
          | tail _ hp' =>
            simp only [List.map_cons, if_neg hx, List.find?]
            rw [decide_eq_false hx]
            exact ih hp'
    rw [hfind]
    rfl
  · rw [if_neg h]
    have hnone : ∀ p ∈ m, ¬ (p.1 = k) := by
      intro p hp hpk
      exact h (List.any_eq_true.2 ⟨p, hp, decide_eq_true hpk⟩)
    rw [find?_append_key m hnone]
    rfl

theorem mem_insertSorted {s a : String} : ∀ {l : List String},
    a ∈ insertSorted s l ↔ a = s ∨ a ∈ l
  | [] => by simp [insertSorted]
  | t :: ts => by
    unfold insertSorted
    by_cases h : strLe s t
    · rw [if_pos h]
      simp only [List.mem_cons]
    · rw [if_neg h]
      simp only [List.mem_cons, mem_insertSorted (l := ts)]
      tauto

theorem mem_sortStrings {a : String} : ∀ {l : List String},
    a ∈ sortStrings l ↔ a ∈ l
  | [] => Iff.rfl
  | x :: xs => by
    show a ∈ insertSorted x (sortStrings xs) ↔ _
    rw [mem_insertSorted, mem_sortStrings (l := xs)]
    simp

theorem mem_dedupFirst {a : String} : ∀ {l : List String},
    a ∈ dedupFirst l ↔ a ∈ l
  | [] => Iff.rfl
  | x :: xs => by
    unfold dedupFirst
    simp only [List.mem_cons, List.mem_filter, mem_dedupFirst (l := xs),
      decide_eq_true_eq]
    constructor
    · rintro (rfl | ⟨h, _⟩)
      · exact Or.inl rfl
      · exact Or.inr h
    · rintro (rfl | h)
      · exact Or.inl rfl
      · by_cases hax : a = x
        · exact Or.inl hax
        · exact Or.inr ⟨h, hax⟩

theorem nodup_dedupFirst : ∀ (l : List String), (dedupFirst l).Nodup
  | [] => List.nodup_nil
  | x :: xs => by
    unfold dedupFirst
    refine List.nodup_cons.2 ⟨?_, List.Nodup.filter _ (nodup_dedupFirst xs)⟩
    intro hmem
    have := (List.mem_filter.1 hmem).2
    simp at this

theorem perm_insertTargetSorted (t : InstallTarget) : ∀ (l : List InstallTarget),
    List.Perm (insertTargetSorted t l) (t :: l)
  | [] => List.Perm.refl _
  | u :: us => by
    unfold insertTargetSorted
    by_cases h : strLe t.specifier u.specifier
    · rw [if_pos h]
    · rw [if_neg h]
      exact ((perm_insertTargetSorted t us).cons u).trans (List.Perm.swap _ _ _)

theorem perm_sortTargets : ∀ (l : List InstallTarget), List.Perm (sortTargets l) l
  | [] => List.Perm.refl _
  | x :: xs => by
    show List.Perm (insertTargetSorted x (sortTargets xs)) _
    exact (perm_insertTargetSorted x _).trans ((perm_sortTargets xs).cons x)

/-! ## Effect-trace lemmas -/

/-- `install` never removes the output directory itself (that effect belongs
to `run`). -/
theorem removeOutputDir_not_mem_install_effects (env : NodeEnv)
    (config : SnowpackConfig) (lockfile : Option ImportMap)
    (targets : List InstallTarget) :
    Effect.removeOutputDir ∉ (install env config lockfile targets).effects := by
  unfold install
  split
  · simp [failedInstall]
  · split
    · simp [failedInstall]
    · split
      · simp
      · split
        · simp [failedInstall]
        · intro hmem
          simp only [List.mem_append] at hmem
          rcases hmem with (hmem | hmem) | hmem
          · split at hmem <;> simp_all
          · simp at hmem
          · rw [List.mem_map] at hmem
            obtain ⟨p, _, hp⟩ := hmem
            cases hp

theorem run_eq_of_nonempty (env : NodeEnv) (config : SnowpackConfig)
    (lockfile : Option ImportMap) (targets : List InstallTarget)
    (h : ¬ targets.isEmpty) :
    run env config lockfile targets =
      { success := (install env config (newLockfileFor env config) targets).success,
        importMap := (install env config (newLockfileFor env config) targets).importMap,
        newLockfile := newLockfileFor env config,
        effects := Effect.removeOutputDir ::
          (install env config (newLockfileFor env config) targets).effects } := by
  unfold run
  rw [if_neg h]

/-! ## Claim C8 -/

/-- Claim C8 (corrected): the claim says the output directory is removed on
*every* run; in fact `run` returns before `rimraf.sync(dest)` whenever the
install-target list is empty, leaving prior output untouched.  This concrete
run performs no effects at all. -/
theorem claim_C8_counterexample :
    (run envNoResolve {} none []).effects = [] ∧
    (run envNoResolve {} none []).success = true ∧
    Effect.removeOutputDir ∉ (run envNoResolve {} none []).effects :=
  ⟨rfl, rfl, by intro h; rw [show (run envNoResolve {} none []).effects = [] from rfl] at h; cases h⟩

/-- Claim C8 (amended): on every run with a non-empty install-target list the
output directory is removed wholesale before any emission effect (bundle
write, import-map write, asset copy); a run with no targets returns
immediately without touching the output directory, and the directory is
recreated only by the emission effects themselves. -/
theorem claim_C8 (env : NodeEnv) (config : SnowpackConfig)
    (lockfile : Option ImportMap) (targets : List InstallTarget)
    (h : targets ≠ []) :
    (run env config lockfile targets).effects.head? = some Effect.removeOutputDir ∧
    Effect.removeOutputDir ∉ (run env config lockfile targets).effects.tail := by
  have hne : ¬ targets.isEmpty := by
    cases targets with
    | nil => exact absurd rfl h
    | cons a l => simp [List.isEmpty]
  rw [run_eq_of_nonempty env config lockfile targets hne]
  exact ⟨rfl, removeOutputDir_not_mem_install_effects env config _ targets⟩

/-- Witness for the amended C8 at a concrete run. -/
theorem claim_C8_witness :
    (run envNoResolve {} none [tgtReact]).effects.head? = some Effect.removeOutputDir ∧
    Effect.removeOutputDir ∉ (run envNoResolve {} none [tgtReact]).effects.tail :=
  claim_C8 envNoResolve {} none [tgtReact] (by intro h; cases h)

/-! ## Claim C9 -/

/-- Claim C9 (corrected): the claim says the missing-`node_modules` error
aborts *before* file enumeration begins.  In this concrete command run with no
`node_modules`, no remote manifest and no PnP, the effect trace starts with
the enumeration (performed by `getInstallTargets` before `install` ever runs),
and only afterwards does install fail. -/
theorem claim_C9_counterexample :
    (command envNoNM {} none).success = false ∧
    (command envNoNM {} none).effects =
      [Effect.enumerateFiles, Effect.removeOutputDir] ∧
    (command envNoNM {} none).effects.head? = some Effect.enumerateFiles :=
  ⟨rfl, rfl, rfl⟩

/-- Claim C9 (amended): when no `node_modules` directory exists, no
remote-dependency manifest is declared, and the process is not running under
Yarn PnP, the run fails with the configuration error — but only after file
enumeration, which `getInstallTargets` completes before `install` performs
the check; the failure aborts before any resolution or emission. -/
theorem claim_C9 (env : NodeEnv) (config : SnowpackConfig)
    (lockfile : Option ImportMap)
    (hweb : config.webDependencies = none) (hpnp : env.pnp = false)
    (hnm : env.nodeModulesInstalled = false) (hne : env.scannedTargets ≠ []) :
    (command env config lockfile).success = false ∧
    (command env config lockfile).effects =
      [Effect.enumerateFiles, Effect.removeOutputDir] := by
  have hne' : ¬ env.scannedTargets.isEmpty := by
    cases htl : env.scannedTargets with
    | nil => exact absurd htl hne
    | cons a l => simp [List.isEmpty]
  have hnlf : newLockfileFor env config = none := by
    unfold newLockfileFor
    rw [hweb]
    rfl
  have hinst : install env config none env.scannedTargets = failedInstall := by
    unfold install
    rw [if_pos]
    exact ⟨by rw [hweb]; rfl, by rw [hpnp]; exact Bool.false_ne_true,
      by rw [hnm]; exact Bool.false_ne_true⟩
  unfold command
  rw [if_neg hne', run_eq_of_nonempty env config lockfile env.scannedTargets hne',
    hnlf, hinst]
  exact ⟨rfl, rfl⟩

/-- Witness for the amended C9 at a concrete environment. -/
theorem claim_C9_witness :
    (command envNoNM {} none).success = false ∧
    (command envNoNM {} none).effects =
      [Effect.enumerateFiles, Effect.removeOutputDir] :=
  claim_C9 envNoNM {} none rfl rfl rfl
    (by intro h; rw [show envNoNM.scannedTargets = [tgtReact] from rfl] at h; cases h)

/-! ## Claim C10 -/

theorem installLoop_skip (env : NodeEnv) (config : SnowpackConfig)
    (lockfile : Option ImportMap) :
    ∀ (specs : List String) (st : InstallState),
      (∀ s ∈ specs, lockfileHit lockfile s = false ∧
        ∃ loc, resolveWebDependency env s = .ok ⟨.IGNORE, loc⟩) →
      installLoop env config lockfile specs st = .ok st
  | [], st, _ => rfl
  | s :: ss, st, h => by
    obtain ⟨hhit, loc, hres⟩ := h s (List.mem_cons_self s ss)
    have hstep : installStep env config lockfile st s = .ok st := by
      unfold installStep
      rw [if_neg (by rw [hhit]; exact Bool.false_ne_true), hres]
    unfold installLoop
    rw [hstep]
    exact installLoop_skip env config lockfile ss st
      (fun x hx => h x (List.mem_cons_of_mem s hx))

/-- Claim C10 (confirmed): if after filtering the install step is left with no
JS entry points and no asset entry points — here, every surviving specifier is
either absent (all externalized) or resolves to `Ignore` — `install` returns
success with the import map built so far, without invoking the bundler and
without writing the import-map file. -/
theorem claim_C10 (env : NodeEnv) (config : SnowpackConfig)
    (lockfile : Option ImportMap) (targets : List InstallTarget)
    (hcfg : ¬ (config.webDependencies.isNone ∧ ¬ env.pnp ∧ ¬ env.nodeModulesInstalled))
    (hall : ∀ s ∈ allInstallSpecifiers config targets,
      lockfileHit lockfile s = false ∧
      ∃ loc, resolveWebDependency env s = .ok ⟨.IGNORE, loc⟩) :
    install env config lockfile targets =
      { success := true, importMap := some [], installEntrypoints := [],
        assetEntrypoints := [], effects := [] } ∧
    Effect.bundleWrite ∉ (install env config lockfile targets).effects ∧
    Effect.writeImportMapFile ∉ (install env config lockfile targets).effects := by
  have hloop := installLoop_skip env config lockfile
    (allInstallSpecifiers config targets) {} hall
  have hinst : install env config lockfile targets =
      { success := true, importMap := some [], installEntrypoints := [],
        assetEntrypoints := [], effects := [] } := by
    unfold install
    rw [if_neg hcfg, hloop]
    rfl
  refine ⟨hinst, ?_, ?_⟩ <;> rw [hinst] <;> intro h <;> cases h

/-- Witness for C10: the single target is externalized, so nothing survives
aggregation. -/
theorem claim_C10_witness :
    install envNoResolve cfgFooExt none [tgtFoo] =
      { success := true, importMap := some [], installEntrypoints := [],
        assetEntrypoints := [], effects := [] } ∧
    Effect.bundleWrite ∉ (install envNoResolve cfgFooExt none [tgtFoo]).effects ∧
    Effect.writeImportMapFile ∉ (install envNoResolve cfgFooExt none [tgtFoo]).effects :=
  claim_C10 envNoResolve cfgFooExt none [tgtFoo]
    (fun h => h.2.2 rfl)
    (by
      intro s hs
      rw [show allInstallSpecifiers cfgFooExt [tgtFoo] = [] from rfl] at hs
      cases hs)

/-! ## Claim C1 -/

/-- Claim C1 (corrected): a lockfile-keyed target *does* bypass resolution —
`install` succeeds although this environment's resolver finds nothing — but it
is *not* excluded from the bundler inputs: the entry `react ↦ ./react.v17.js`
(the lockfile URL) appears in `installEntrypoints`, the map handed to rollup
as its `input`. -/
theorem claim_C1_counterexample :
    (install envNoResolve {} (some lfReact) [tgtReact]).success = true ∧
    (install envNoResolve {} (some lfReact) [tgtReact]).installEntrypoints =
      [("react", "./react.v17.js")] ∧
    resolveWebDependency envNoResolve "react" = .error (.notFound "react" "") :=
  ⟨rfl, rfl, rfl⟩

/-- Claim C1 (amended): for every install invocation and every specifier keyed
in the lockfile, the loop takes the lockfile branch: the lockfile URL is
authoritative and becomes that target's bundler-input path (keyed under its
web-dependency name), the import map records the local `./<sanitized>.js`
form, and resolution is bypassed — the step's result is the same for any two
environments that agree on name validation and sanitization, however their
resolvers differ. -/
theorem claim_C1 (env env₂ : NodeEnv) (config : SnowpackConfig)
    (lf : ImportMap) (st : InstallState) (s url : String)
    (hhit : assocGet lf.imports s = some url) (hne : url ≠ "")
    (hval : env₂.validForNewPackages = env.validForNewPackages)
    (hsan : env₂.sanitizePackageName = env.sanitizePackageName) :
    installStep env config (some lf) st s = .ok { st with
      installEntrypoints := assocSet st.installEntrypoints
        (getWebDependencyName env.validForNewPackages s) url
      importMapImports := assocSet st.importMapImports s
        ("./" ++ env.sanitizePackageName (getWebDependencyName env.validForNewPackages s)
          ++ ".js") } ∧
    assocGet (assocSet st.installEntrypoints
      (getWebDependencyName env.validForNewPackages s) url)
      (getWebDependencyName env.validForNewPackages s) = some url ∧
    installStep env₂ config (some lf) st s = installStep env config (some lf) st s := by
  have hhit' : lockfileHit (some lf) s = true := by
    simp [lockfileHit, hhit, strTruthy, hne]
  have hstep : ∀ (e : NodeEnv), installStep e config (some lf) st s = .ok { st with
      installEntrypoints := assocSet st.installEntrypoints
        (getWebDependencyName e.validForNewPackages s) url
      importMapImports := assocSet st.importMapImports s
        ("./" ++ e.sanitizePackageName (getWebDependencyName e.validForNewPackages s)
          ++ ".js") } := by
    intro e
    unfold installStep lockfileUrl
    rw [if_pos hhit']
    simp only [hhit, Option.getD_some]
  refine ⟨hstep env, assocGet_assocSet_self, ?_⟩
  rw [hstep env, hstep env₂, hval, hsan]

/-- Witness for the amended C1: two environments with different resolvers
(`envNoResolve` resolves nothing, `envLodash` resolves `lodash-es`) take the
identical lockfile branch for `react`. -/
theorem claim_C1_witness :
    installStep envNoResolve {} (some lfReact) {} "react" = .ok {
      installEntrypoints := [("react", "./react.v17.js")]
      assetEntrypoints := []
      importMapImports := [("react", "./react.js")] } ∧
    assocGet (assocSet ({} : InstallState).installEntrypoints
      (getWebDependencyName envNoResolve.validForNewPackages "react") "./react.v17.js")
      (getWebDependencyName envNoResolve.validForNewPackages "react") =
      some "./react.v17.js" ∧
    installStep envLodash {} (some lfReact) {} "react" =
      installStep envNoResolve {} (some lfReact) {} "react" := by
  have h := claim_C1 envNoResolve envLodash {} lfReact {} "react" "./react.v17.js"
    rfl (by decide) rfl rfl
  exact ⟨by rw [h.1]; rfl, h.2.1, h.2.2⟩

/-! ## Claim C5 -/

/-- Claim C5 (corrected): the spec's scenario-1 input (`import React from
"react"` and `import {useState} from "react"`) produces *two* separate targets
for `react` — the aggregator sorts but never merges them into a single record
with `default := true` and `named := [useState]`. -/
theorem claim_C5_counterexample :
    scanImportsFromFiles (fun _ => true) {} [fileReact] =
      [{ specifier := "react", all := false, default := true,
         namespaceImport := false, named := [] },
       { specifier := "react", all := false, default := false,
         namespaceImport := false, named := ["useState"] }] ∧
    (scanImportsFromFiles (fun _ => true) {} [fileReact]).length = 2 ∧
    ∀ t ∈ scanImportsFromFiles (fun _ => true) {} [fileReact],
      ¬ (t.default = true ∧ t.named = ["useState"]) :=
  ⟨rfl, rfl, by decide⟩

/-- Claim C5 (amended): the aggregator never merges install targets sharing a
specifier: `scanImportsFromFiles` only filters (alias rule) and sorts — its
output is a permutation of the per-file parses, each record kept intact — and
the only deduplication happens at the specifier-string level in `install`
(`allInstallSpecifiers` has no duplicate entries); the shape flags are never
combined. -/
theorem claim_C5 (valid : String → Bool) (config : SnowpackConfig)
    (files : List ScannedFile) (targets : List InstallTarget) :
    List.Perm (scanImportsFromFiles valid config files)
      (((files.map (parseCodeForInstallTargets valid)).flatten).filter
        (aliasFilterOk config)) ∧
    (allInstallSpecifiers config targets).Nodup := by
  constructor
  · exact perm_sortTargets _
  · exact nodup_dedupFirst _

/-! ## Claim C6 -/

theorem findSome?_eq_none_iff {α β : Type} (f : α → Option β) :
    ∀ (l : List α), l.findSome? f = none ↔ ∀ x ∈ l, f x = none
  | [] => by simp
  | x :: xs => by
    rw [List.findSome?_cons]
    cases hfx : f x with
    | some b =>
      simp only []
      constructor
      · intro h; cases h
      · intro h
        exact absurd hfx (by rw [h x (List.mem_cons_self x xs)]; intro h'; cases h')
    | none =>
      simp only []
      rw [findSome?_eq_none_iff f xs]
      constructor
      · intro h y hy
        cases hy with
        | head => exact hfx
        | tail _ hy' => exact h y hy'
      · intro h y hy
        exact h y (List.mem_cons_of_mem x hy)

/-- Claim C6 (corrected): the dynamic-import argument `` `./a.js` `` is a
template literal without interpolation, yet the scanner drops it — the
match regex admits only `'`/`"`-quoted literals; the same argument quoted is
accepted. -/
theorem claim_C6_counterexample :
    strSub tmplCode impTmpl.s impTmpl.e = "`./a.js`" ∧
    getWebModuleSpecifierFromCode tmplCode impTmpl = none ∧
    getWebModuleSpecifierFromCode quotCode impQuot = some "./a.js" :=
  ⟨rfl, rfl, rfl⟩

/-- Claim C6 (amended): meta-imports (`d = -2`) are always dropped; for a
dynamic import (`d ≥ 0`) the specifier is dropped exactly when no line of the
argument text is, up to surrounding whitespace, a `'`/`"`-quoted string
literal — in particular template literals (backticks), interpolations and all
other argument forms are dropped. -/
theorem claim_C6 (code : String) (imp : ImportSpec) :
    (imp.d = -2 → getWebModuleSpecifierFromCode code imp = none) ∧
    (0 ≤ imp.d →
      (getWebModuleSpecifierFromCode code imp = none ↔
        ∀ line ∈ splitCh '\n' (strSub code imp.s imp.e).toList,
          lineQuotedCapture line = none)) := by
  constructor
  · intro h
    unfold getWebModuleSpecifierFromCode
    rw [if_pos h]
  · intro h
    have h2 : ¬ (imp.d = -2) := by omega
    have h1 : ¬ (imp.d = -1) := by omega
    unfold getWebModuleSpecifierFromCode
    rw [if_neg h2, if_neg h1]
    exact findSome?_eq_none_iff lineQuotedCapture _

/-- Witness for the amended C6: the template-literal argument is dropped
because no line of it is a quoted literal; the quoted argument is kept. -/
theorem claim_C6_witness :
    getWebModuleSpecifierFromCode tmplCode impTmpl = none ∧
    ¬ (getWebModuleSpecifierFromCode quotCode impQuot = none) :=
  ⟨((claim_C6 tmplCode impTmpl).2 (by decide)).mpr (by decide),
   fun h => by
    have := ((claim_C6 quotCode impQuot).2 (by decide)).mp h
    exact absurd (this "\"./a.js\"".toList (by decide)) (by decide)⟩

/-! ## Claim C2 -/

theorem jsOrS_some {s : String} {b : Option JsVal} (h : s ≠ "") :
    jsOrS (some s) b = some (.str s) := by
  simp [jsOrS, jsOrO, JsVal.truthy, h]

theorem jsOrS_none (b : Option JsVal) : jsOrS none b = b := rfl

theorem exists_of_findSome?_eq_some {α β : Type} {f : α → Option β} {b : β} :
    ∀ {l : List α}, l.findSome? f = some b → ∃ x ∈ l, f x = some b
  | [], h => by rw [List.findSome?_nil] at h; cases h
  | x :: xs, h => by
    rw [List.findSome?_cons] at h
    revert h
    cases hfx : f x with
    | some c =>
      intro h
      exact ⟨x, List.mem_cons_self x xs, by rw [hfx]; exact h⟩
    | none =>
      intro h
      obtain ⟨y, hy, hfy⟩ := exists_of_findSome?_eq_some h
      exact ⟨y, List.mem_cons_of_mem x hy, hfy⟩

/-- Under the probe-regularity assumptions, the code's `||`-probe of a
`browser` object equals the spec's first-present-key probe. -/
theorem probe_chain_eq (fs : List (String × JsVal)) (dep : String)
    (h1 : probeValRegular (objGet fs dep) = true)
    (h2 : probeValRegular (objGet fs "./index.js") = true)
    (h3 : probeValRegular (objGet fs "./index") = true)
    (h4 : probeValRegular (objGet fs "./") = true)
    (h5 : probeValRegular (objGet fs ".") = true) :
    jsOrO (objGet fs dep) (jsOrO (objGet fs "./index.js")
        (jsOrO (objGet fs "./index") (jsOrO (objGet fs "./") (objGet fs ".")))) =
      ([dep, "./index.js", "./index", "./", "."].findSome? (fun k =>
        match objGet fs k with
        | some (.str s) => some s
        | _ => none)).map JsVal.str := by
  simp only [List.findSome?_cons]
  cases hk1 : objGet fs dep with
  | some v =>
    rw [hk1] at h1
    match v, h1 with
    | .str s, h1 =>
      have hs : s ≠ "" := by simpa [probeValRegular] using h1
      simp [jsOrO, JsVal.truthy, hs]
  | none =>
    simp only [jsOrO]
    cases hk2 : objGet fs "./index.js" with
    | some v =>
      rw [hk2] at h2
      match v, h2 with
      | .str s, h2 =>
        have hs : s ≠ "" := by simpa [probeValRegular] using h2
        simp [jsOrO, JsVal.truthy, hs]
    | none =>
      simp only [jsOrO]
      cases hk3 : objGet fs "./index" with
      | some v =>
        rw [hk3] at h3
        match v, h3 with
        | .str s, h3 =>
          have hs : s ≠ "" := by simpa [probeValRegular] using h3
          simp [jsOrO, JsVal.truthy, hs]
      | none =>
        simp only [jsOrO]
        cases hk4 : objGet fs "./" with
        | some v =>
          rw [hk4] at h4
          match v, h4 with
          | .str s, h4 =>
            have hs : s ≠ "" := by simpa [probeValRegular] using h4
            simp [jsOrO, JsVal.truthy, hs]
        | none =>
          simp only [jsOrO]
          cases hk5 : objGet fs "." with
          | some v =>
            rw [hk5] at h5
            match v, h5 with
            | .str s, h5 =>
              have hs : s ≠ "" := by simpa [probeValRegular] using h5
              simp [JsVal.truthy, hs]
          | none => simp

/-- Under manifest regularity the code's `||`-chain entry selection equals the
spec's priority selection, and every selected entry is a nonempty string. -/
theorem codeSelectEntry_eq_spec (m : PackageManifest) (dep : String)
    (hreg : manifestRegularB m dep = true) :
    codeSelectEntry m dep = (specSelectEntry m dep).map JsVal.str ∧
    (∀ s, specSelectEntry m dep = some s → s ≠ "") := by
  have hreg' := hreg
  unfold manifestRegularB at hreg'
  simp only [Bool.and_eq_true] at hreg'
  obtain ⟨⟨⟨⟨hbm, hmod⟩, hmes⟩, hmain⟩, hbr⟩ := hreg'
  have hmain' : ∀ s, m.main = some s → s ≠ "" := by
    intro s hs
    rw [hs] at hmain
    simpa [optStrRegular] using hmain
  unfold codeSelectEntry specSelectEntry
  cases hb : m.browserModule with
  | some s =>
    rw [hb] at hbm
    have hs : s ≠ "" := by simpa [optStrRegular] using hbm
    rw [jsOrS_some hs]
    exact ⟨by simp [JsVal.truthy, hs], fun s' h => by rw [← Option.some_inj.1 h]; exact hs⟩
  | none =>
    rw [jsOrS_none]
    cases hm : m.module with
    | some s =>
      rw [hm] at hmod
      have hs : s ≠ "" := by simpa [optStrRegular] using hmod
      rw [jsOrS_some hs]
      exact ⟨by simp [JsVal.truthy, hs], fun s' h => by rw [← Option.some_inj.1 h]; exact hs⟩
    | none =>
      rw [jsOrS_none]
      cases hme : m.mainEsnext with
      | some s =>
        rw [hme] at hmes
        have hs : s ≠ "" := by simpa [optStrRegular] using hmes
        rw [jsOrS_some hs]
        exact ⟨by simp [JsVal.truthy, hs], fun s' h => by rw [← Option.some_inj.1 h]; exact hs⟩
      | none =>
        rw [jsOrS_none]
        cases hbrw : m.browser with
        | none =>
          simp only []
          constructor
          · cases hmn : m.main with
            | some s => simp
            | none => simp
          · intro s hsm
            cases hmn : m.main with
            | some s' =>
              rw [hmn] at hsm
              exact (Option.some_inj.1 hsm) ▸ hmain' s' hmn
            | none => rw [hmn] at hsm; cases hsm
        | some v =>
          rw [hbrw] at hbr
          match v, hbr with
          | .str s, hbr =>
            have hs : s ≠ "" := by simpa [browserRegular] using hbr
            simp only [JsVal.truthy, if_pos]
            rw [if_pos (by simpa using hs)]
            exact ⟨by simp [JsVal.truthy, hs],
              fun s' h => by rw [← Option.some_inj.1 h]; exact hs⟩
          | .obj fs, hbr =>
            simp only [browserRegular, Bool.and_eq_true] at hbr
            obtain ⟨⟨⟨⟨h1, h2⟩, h3⟩, h4⟩, h5⟩ := hbr
            simp only [JsVal.truthy, if_pos]
            rw [probe_chain_eq fs dep h1 h2 h3 h4 h5]
            cases hpr : ([dep, "./index.js", "./index", "./", "."].findSome? (fun k =>
                match objGet fs k with
                | some (.str s) => some s
                | _ => none)) with
            | some s =>
              have hs : s ≠ "" := by
                have hmem := exists_of_findSome?_eq_some hpr
                obtain ⟨k, hk, hks⟩ := hmem
                revert hks
                cases hgk : objGet fs k with
                | none => intro hks; cases hks
                | some w =>
                  match w with
                  | .str t =>
                    intro hks
                    have : t = s := Option.some_inj.1 hks
                    subst this
                    have hkreg : probeValRegular (objGet fs k) = true := by
                      simp only [List.mem_cons, List.mem_singleton,
                        List.not_mem_nil, or_false] at hk
                      rcases hk with rfl | rfl | rfl | rfl | rfl
                      · exact h1
                      · exact h2
                      · exact h3
                      · exact h4
                      · exact h5
                    rw [hgk] at hkreg
                    simpa [probeValRegular] using hkreg
                  | .obj _ => intro hks; cases hks
                  | .other _ => intro hks; cases hks
              constructor
              · simp [JsVal.truthy, hs]
              · intro s' h
                rw [← Option.some_inj.1 h]
                exact hs
            | none =>
              constructor
              · cases m.main <;> simp
              · intro s hsm
                cases hmn : m.main with
                | some s' =>
                  rw [hmn] at hsm
                  exact (Option.some_inj.1 hsm) ▸ hmain' s' hmn
                | none => rw [hmn] at hsm; cases hsm

/-- Under manifest regularity, the CASE 3 body equals the spec-worded
manifest lookup. -/
theorem resolveFromManifest_eq_spec (env : NodeEnv) (dmLoc : String)
    (m : PackageManifest) (dep : String) (hreg : manifestRegularB m dep = true) :
    resolveFromManifest env dmLoc m dep = specManifestLookup env dmLoc m dep := by
  obtain ⟨hsel, hne⟩ := codeSelectEntry_eq_spec m dep hreg
  unfold resolveFromManifest specManifestLookup
  rw [hsel]
  cases hspec : specSelectEntry m dep with
  | some s =>
    have hs : s ≠ "" := hne s hspec
    have htr : (JsVal.str s).truthy = true := by simp [JsVal.truthy, hs]
    simp only [Option.map_some', htr, Bool.not_true]
    cases hrr : env.requireResolve (pathJoinParent dmLoc s) with
    | some loc => simp [hrr]
    | none => simp [hrr]
  | none =>
    simp only [Option.map_none']
    cases hrr : env.requireResolve (pathJoinParent dmLoc "index.js") with
    | some loc => simp [hrr]
    | none => simp [hrr]

/-- Routing lemma: when the manifest under `dep` exists and is not a reserved
workaround package, CASE 3/4/5 reduces to the manifest lookup. -/
theorem resolveTail_eq (env : NodeEnv) (dep dmLoc : String) (m : PackageManifest)
    (hman : env.resolveDependencyManifest dep = (some dmLoc, some m))
    (hwork : isReservedWorkaroundName m.name = false) :
    resolveWebDependency.resolveTail env dep = resolveFromManifest env dmLoc m dep := by
  unfold resolveWebDependency.resolveTail
  rw [hman]
  simp only [hwork, Bool.false_eq_true, if_false]

/-- Claim C2 (confirmed): for every bare specifier routed to the
package-manifest lookup — no direct-file case, no applicable export map
(no subpath, or no `exports` in the package's manifest), a manifest present
under the full specifier, not a reserved workaround name — the resolver's
entry-point selection follows the priority `browser:module → module →
main:esnext → browser → main`, probes an object-valued `browser` at the keys
specifier, `./index.js`, `./index`, `./`, `.` in order, falls back to the
implicit `index.js`, and on failing node-resolution of the implicit index
returns kind `Ignore` iff the manifest carries `types`/`typings`, otherwise
propagates the error — i.e. it equals the spec-worded `specManifestLookup`.
(The regularity hypothesis `manifestRegularB` pins the JS-`||` reading of
"priority" to the spec's "first present": fields, when present, are truthy.) -/
theorem claim_C2 (env : NodeEnv) (dep dmLoc : String) (m : PackageManifest)
    (hcase1 : ¬ (extname dep ≠ "" ∧ ¬ env.validForNewPackages dep))
    (hroute : (parsePackageImportSpecifier dep).2 = none ∨
      (match env.resolveDependencyManifest (parsePackageImportSpecifier dep).1 with
       | (some _, some pm) => pm.exports = none
       | _ => True))
    (hman : env.resolveDependencyManifest dep = (some dmLoc, some m))
    (hwork : isReservedWorkaroundName m.name = false)
    (hreg : manifestRegularB m dep = true) :
    resolveWebDependency env dep = specManifestLookup env dmLoc m dep := by
  unfold resolveWebDependency
  rw [if_neg hcase1]
  rcases hpp : parsePackageImportSpecifier dep with ⟨pkg, sub?⟩
  rw [hpp] at hroute
  cases sub? with
  | none =>
    dsimp only
    rw [resolveTail_eq env dep dmLoc m hman hwork]
    exact resolveFromManifest_eq_spec env dmLoc m dep hreg
  | some sub =>
    dsimp only
    rcases hq : env.resolveDependencyManifest pkg with ⟨mloc?, pm?⟩
    simp only [hq] at hroute ⊢
    cases mloc? with
    | none =>
      cases pm? with
      | none =>
        dsimp only
        rw [resolveTail_eq env dep dmLoc m hman hwork]
        exact resolveFromManifest_eq_spec env dmLoc m dep hreg
      | some pm =>
        dsimp only
        rw [resolveTail_eq env dep dmLoc m hman hwork]
        exact resolveFromManifest_eq_spec env dmLoc m dep hreg
    | some l =>
      cases pm? with
      | none =>
        dsimp only
        rw [resolveTail_eq env dep dmLoc m hman hwork]
        exact resolveFromManifest_eq_spec env dmLoc m dep hreg
      | some pm =>
        have hexp : pm.exports = none := by
          rcases hroute with h | h
          · cases h
          · exact h
        dsimp only
        rw [hexp]
        rw [resolveTail_eq env dep dmLoc m hman hwork]
        exact resolveFromManifest_eq_spec env dmLoc m dep hreg

/-- Witness for C2: spec §8 scenario 2 — `lodash-es` with `module:
./lodash.js` resolves to `{JS, <pkg>/lodash.js}`, and the spec-worded lookup
agrees. -/
theorem claim_C2_witness :
    resolveWebDependency envLodash "lodash-es" =
      .ok ⟨.JS, "/n/lodash-es/lodash.js"⟩ ∧
    specManifestLookup envLodash "/n/lodash-es/package.json" lodashManifest
      "lodash-es" = .ok ⟨.JS, "/n/lodash-es/lodash.js"⟩ :=
  ⟨(claim_C2 envLodash "lodash-es" "/n/lodash-es/package.json" lodashManifest
      (by decide) (Or.inl rfl) rfl rfl (by decide)).trans rfl, rfl⟩

/-! ## Claim C3 -/

/-- Under entry regularity the code's `||`-chain over the four export
conditions equals the spec's first-present-condition selection. -/
theorem exportSelect_eq (entry : JsVal) (hreg : entryRegular entry = true) :
    jsOrO (JsVal.getField entry "browser") (jsOrO (JsVal.getField entry "import")
      (jsOrO (JsVal.getField entry "default")
        (jsOrO (JsVal.getField entry "require") (some entry)))) =
      some (specCondSelect entry) := by
  match entry with
  | .str s => rfl
  | .other t => rfl
  | .obj fs =>
    simp only [entryRegular, Bool.and_eq_true] at hreg
    obtain ⟨⟨⟨hb, hi⟩, hd⟩, hr⟩ := hreg
    unfold specCondSelect JsVal.getField
    cases hgb : objGet fs "browser" with
    | some v =>
      rw [hgb] at hb
      have hb' : v.truthy = true := hb
      simp [jsOrO, hb', hgb]
    | none =>
      simp only [hgb, jsOrO]
      cases hgi : objGet fs "import" with
      | some v =>
        rw [hgi] at hi
        have hi' : v.truthy = true := hi
        simp [jsOrO, hi', hgi]
      | none =>
        simp only [hgi, jsOrO]
        cases hgd : objGet fs "default" with
        | some v =>
          rw [hgd] at hd
          have hd' : v.truthy = true := hd
          simp [jsOrO, hd', hgd]
        | none =>
          simp only [hgd, jsOrO]
          cases hgr : objGet fs "require" with
          | some v =>
            rw [hgr] at hr
            have hr' : v.truthy = true := hr
            simp [jsOrO, hr', hgr]
          | none => simp [jsOrO, hgr]

/-- Claim C3 (confirmed): for a specifier `packageName/subpath` that is not a
direct-file reference and whose package manifest declares an `exports` map
containing the key `./subpath`, the resolver selects the entry's value under
the condition priority `browser → import → default → require` (the entry
itself when it is a plain value); a non-string selection raises the hard
export-map error, otherwise the result is kind `JS` at
`<manifest-dir>/<value>`.  (`entryRegular` pins the JS-`||` reading of the
priority to "first present": condition values, when present, are truthy.) -/
theorem claim_C3 (env : NodeEnv) (dep pkg sub mloc : String) (m : PackageManifest)
    (exps : List (String × JsVal)) (entry : JsVal)
    (hcase1 : ¬ (extname dep ≠ "" ∧ ¬ env.validForNewPackages dep))
    (hparse : parsePackageImportSpecifier dep = (pkg, some sub))
    (hman : env.resolveDependencyManifest pkg = (some mloc, some m))
    (hexp : m.exports = some exps)
    (hentry : objGet exps ("./" ++ sub) = some entry)
    (hereg : entryRegular entry = true) :
    resolveWebDependency env dep =
      match specCondSelect entry with
      | .str s => .ok ⟨.JS, pathJoinParent mloc s⟩
      | _ => .error (.exportMapMismatch pkg sub) := by
  unfold resolveWebDependency
  rw [if_neg hcase1, hparse]
  dsimp only
  simp only [hman]
  rw [hexp]
  dsimp only
  unfold exportMapLookup
  rw [hentry]
  simp only [Option.some_bind]
  rw [exportSelect_eq entry hereg]
  cases hsc : specCondSelect entry with
  | str s => rfl
  | obj fs => rfl
  | other t => rfl

/-- Witness for C3: `pkg/sub` whose export map binds `./sub` to a conditional
object with `browser: ./b.js` resolves to `{JS, /n/pkg/b.js}`. -/
theorem claim_C3_witness :
    resolveWebDependency envPkg "pkg/sub" = .ok ⟨.JS, "/n/pkg/b.js"⟩ :=
  (claim_C3 envPkg "pkg/sub" "pkg" "sub" "/n/pkg/package.json" pkgExportsManifest
    [("./sub", JsVal.obj [("browser", JsVal.str "./b.js")])]
    (JsVal.obj [("browser", JsVal.str "./b.js")])
    (by decide) rfl rfl rfl rfl (by decide)).trans rfl

/-! ## Install-loop characterization (for C4 and C7) -/

theorem installStep_lockfile {env : NodeEnv} {config : SnowpackConfig}
    {lockfile : Option ImportMap} {st : InstallState} {s : String}
    (hhit : lockfileHit lockfile s = true) :
    installStep env config lockfile st s = .ok { st with
      installEntrypoints := assocSet st.installEntrypoints
        (getWebDependencyName env.validForNewPackages s)
        (lockfileUrl lockfile s)
      importMapImports := assocSet st.importMapImports s
        ("./" ++ env.sanitizePackageName (getWebDependencyName env.validForNewPackages s)
          ++ ".js") } := by
  unfold installStep
  rw [if_pos hhit]

theorem installStep_error {env : NodeEnv} {config : SnowpackConfig}
    {lockfile : Option ImportMap} {st : InstallState} {s : String}
    {e : ResolveError} (hhit : lockfileHit lockfile s = false)
    (hres : resolveWebDependency env s = .error e) :
    installStep env config lockfile st s = .error e := by
  unfold installStep
  rw [if_neg (by rw [hhit]; exact Bool.false_ne_true), hres]

theorem installStep_js {env : NodeEnv} {config : SnowpackConfig}
    {lockfile : Option ImportMap} {st : InstallState} {s loc : String}
    (hhit : lockfileHit lockfile s = false)
    (hres : resolveWebDependency env s = .ok ⟨.JS, loc⟩) :
    installStep env config lockfile st s = .ok { st with
      installEntrypoints := assocSet st.installEntrypoints
        (getWebDependencyName env.validForNewPackages s) loc
      importMapImports := (config.aliasMap.filter (·.2 = s)).foldl
        (fun m p => assocSet m p.1
          ("./" ++ getWebDependencyName env.validForNewPackages s ++ ".js"))
        (assocSet st.importMapImports s
          ("./" ++ env.sanitizePackageName
            (getWebDependencyName env.validForNewPackages s) ++ ".js")) } := by
  unfold installStep
  rw [if_neg (by rw [hhit]; exact Bool.false_ne_true), hres]

theorem installStep_asset {env : NodeEnv} {config : SnowpackConfig}
    {lockfile : Option ImportMap} {st : InstallState} {s loc : String}
    (hhit : lockfileHit lockfile s = false)
    (hres : resolveWebDependency env s = .ok ⟨.ASSET, loc⟩) :
    installStep env config lockfile st s = .ok { st with
      assetEntrypoints := assocSet st.assetEntrypoints
        (getWebDependencyName env.validForNewPackages s) loc
      importMapImports := assocSet st.importMapImports s
        ("./" ++ env.sanitizePackageName
          (getWebDependencyName env.validForNewPackages s)) } := by
  unfold installStep
  rw [if_neg (by rw [hhit]; exact Bool.false_ne_true), hres]

theorem installStep_ignore {env : NodeEnv} {config : SnowpackConfig}
    {lockfile : Option ImportMap} {st : InstallState} {s loc : String}
    (hhit : lockfileHit lockfile s = false)
    (hres : resolveWebDependency env s = .ok ⟨.IGNORE, loc⟩) :
    installStep env config lockfile st s = .ok st := by
  unfold installStep
  rw [if_neg (by rw [hhit]; exact Bool.false_ne_true), hres]

/-- A specifier that the loop survives either gets an import-map key or was
resolved as `Ignore`. -/
theorem stepNoError_eq (env : NodeEnv) (lockfile : Option ImportMap) (s : String) :
    stepNoError env lockfile s =
      (specifierEmitted env lockfile s || ignoredTarget env lockfile s) := by
  unfold stepNoError specifierEmitted ignoredTarget
  cases hhit : lockfileHit lockfile s with
  | true => simp
  | false =>
    simp only [Bool.false_or, Bool.not_false, Bool.true_and]
    cases hres : resolveWebDependency env s with
    | error e => simp
    | ok d =>
      obtain ⟨ty, loc⟩ := d
      cases ty <;> simp

theorem emitted_not_ignored {env : NodeEnv} {lockfile : Option ImportMap}
    {s : String} (h : specifierEmitted env lockfile s = true) :
    ignoredTarget env lockfile s = false := by
  unfold specifierEmitted at h
  unfold ignoredTarget
  cases hhit : lockfileHit lockfile s with
  | true => simp
  | false =>
    rw [hhit] at h
    simp only [Bool.false_or] at h
    cases hres : resolveWebDependency env s with
    | error e => simp [hres] at h
    | ok d =>
      obtain ⟨ty, loc⟩ := d
      cases ty with
      | JS => simp [hres]
      | ASSET => simp [hres]
      | IGNORE => simp [hres] at h

theorem installStep_stepNoError {env : NodeEnv} {config : SnowpackConfig}
    {lockfile : Option ImportMap} {st st' : InstallState} {s : String}
    (h : installStep env config lockfile st s = .ok st') :
    stepNoError env lockfile s = true := by
  unfold stepNoError
  cases hhit : lockfileHit lockfile s with
  | true => rfl
  | false =>
    simp only [Bool.false_or]
    cases hres : resolveWebDependency env s with
    | ok d => rfl
    | error e => rw [installStep_error hhit hres] at h; cases h

theorem installLoop_stepNoError {env : NodeEnv} {config : SnowpackConfig}
    {lockfile : Option ImportMap} :
    ∀ {specs : List String} {st st' : InstallState},
      installLoop env config lockfile specs st = .ok st' →
      ∀ s ∈ specs, stepNoError env lockfile s = true := by
  intro specs
  induction specs with
  | nil => intro st st' _ s hs; cases hs
  | cons x xs ih =>
    intro st st' h s hs
    unfold installLoop at h
    revert h
    cases hstep : installStep env config lockfile st x with
    | error e => intro h; cases h
    | ok st₁ =>
      intro h
      cases hs with
      | head => exact installStep_stepNoError hstep
      | tail _ hs' => exact ih h s hs'

/-- Key-set characterization of one loop step when the alias map is empty. -/
theorem installStep_importMap_mem_nil {env : NodeEnv} {config : SnowpackConfig}
    {lockfile : Option ImportMap} {st st' : InstallState} {s : String}
    (halias : config.aliasMap = [])
    (h : installStep env config lockfile st s = .ok st') (k : String) :
    k ∈ assocKeys st'.importMapImports ↔
      k ∈ assocKeys st.importMapImports ∨
        (k = s ∧ specifierEmitted env lockfile s = true) := by
  cases hhit : lockfileHit lockfile s with
  | true =>
    rw [installStep_lockfile hhit] at h
    have hst : st' = _ := (Except.ok.inj h).symm
    subst hst
    have hem : specifierEmitted env lockfile s = true := by
      unfold specifierEmitted
      rw [hhit]
      rfl
    simp only [hem, and_true]
    exact (mem_assocKeys_assocSet).trans (by tauto)
  | false =>
    cases hres : resolveWebDependency env s with
    | error e => rw [installStep_error hhit hres] at h; cases h
    | ok d =>
      obtain ⟨ty, loc⟩ := d
      cases ty with
      | JS =>
        rw [installStep_js hhit hres] at h
        have hst : st' = _ := (Except.ok.inj h).symm
        subst hst
        have hem : specifierEmitted env lockfile s = true := by
          unfold specifierEmitted
          rw [hhit, hres]
          simp
        simp only [halias, List.filter_nil, List.foldl_nil, hem, and_true]
        exact (mem_assocKeys_assocSet).trans (by tauto)
      | ASSET =>
        rw [installStep_asset hhit hres] at h
        have hst : st' = _ := (Except.ok.inj h).symm
        subst hst
        have hem : specifierEmitted env lockfile s = true := by
          unfold specifierEmitted
          rw [hhit, hres]
          simp
        simp only [hem, and_true]
        exact (mem_assocKeys_assocSet).trans (by tauto)
      | IGNORE =>
        rw [installStep_ignore hhit hres] at h
        have hst : st' = st := (Except.ok.inj h).symm
        subst hst
        have hem : specifierEmitted env lockfile s = false := by
          unfold specifierEmitted
          rw [hhit, hres]
          simp
        simp [hem]

/-- Key-set characterization of the whole loop when the alias map is empty. -/
theorem installLoop_importMap_mem_nil {env : NodeEnv} {config : SnowpackConfig}
    {lockfile : Option ImportMap} (halias : config.aliasMap = []) :
    ∀ {specs : List String} {st st' : InstallState},
      installLoop env config lockfile specs st = .ok st' →
      ∀ k, k ∈ assocKeys st'.importMapImports ↔
        k ∈ assocKeys st.importMapImports ∨
          (k ∈ specs ∧ specifierEmitted env lockfile k = true) := by
  intro specs
  induction specs with
  | nil =>
    intro st st' h k
    have hst : st' = st := (Except.ok.inj h).symm
    subst hst
    simp
  | cons x xs ih =>
    intro st st' h k
    unfold installLoop at h
    revert h
    cases hstep : installStep env config lockfile st x with
    | error e => intro h; cases h
    | ok st₁ =>
      intro h
      rw [ih h k, installStep_importMap_mem_nil halias hstep k]
      constructor
      · rintro ((hm | ⟨rfl, he⟩) | ⟨hx, he⟩)
        · exact Or.inl hm
        · exact Or.inr ⟨List.mem_cons_self _ _, he⟩
        · exact Or.inr ⟨List.mem_cons_of_mem _ hx, he⟩
      · rintro (hm | ⟨hx, he⟩)
        · exact Or.inl (Or.inl hm)
        · cases hx with
          | head => exact Or.inl (Or.inr ⟨rfl, he⟩)
          | tail _ hx' => exact Or.inr ⟨hx', he⟩

theorem aliasRewrite_nil {config : SnowpackConfig} (halias : config.aliasMap = [])
    (s : String) : aliasRewrite config s = s := by
  unfold aliasRewrite findMatchingAliasEntry
  rw [halias]
  rfl

theorem mem_allInstallSpecifiers {config : SnowpackConfig}
    {targets : List InstallTarget} {s : String} :
    s ∈ allInstallSpecifiers config targets ↔
      ∃ t ∈ targets, rollupExternalTest config t.specifier = false ∧
        aliasRewrite config t.specifier = s := by
  unfold allInstallSpecifiers rollupExternalTest
  rw [mem_dedupFirst, mem_sortStrings]
  simp only [List.mem_map, List.mem_filter, Bool.not_eq_true']
  constructor
  · rintro ⟨x, ⟨t, ⟨ht, hext⟩, rfl⟩, rfl⟩
    exact ⟨t, ht, hext, rfl⟩
  · rintro ⟨t, ht, hext, rfl⟩
    exact ⟨t.specifier, ⟨t, ⟨ht, hext⟩, rfl⟩, rfl⟩

/-! ## Claim C7 -/

/-- Claim C7 (corrected): with a non-empty alias map the emitted import map
can contain keys that are not input target specifiers at all.  Here the only
input target is `aaa`, aliased (package-kind) to `bbb`: the completed run
emits the keys `bbb` (the rewritten specifier) and `aaa` (the alias
expansion) — `bbb` is not an input target specifier, so the claimed key-set
equality fails. -/
theorem claim_C7_counterexample :
    (install envBbb cfgAliasBbb none [tgtAaa]).success = true ∧
    (install envBbb cfgAliasBbb none [tgtAaa]).importMap =
      some [("bbb", "./bbb.js"), ("aaa", "./bbb.js")] ∧
    "bbb" ∈ assocKeys [("bbb", "./bbb.js"), ("aaa", "./bbb.js")] ∧
    ∀ t ∈ [tgtAaa], t.specifier ≠ "bbb" :=
  ⟨rfl, rfl, by decide, by decide⟩

/-- Claim C7 (amended): for every completed (successful) install run whose
alias map is empty, the key set of the emitted import map equals the set of
input target specifiers minus those covered by an externalized-package prefix
and minus those resolved as `Ignore` (lockfile-keyed specifiers are never
resolved, hence never ignored). -/
theorem claim_C7 (env : NodeEnv) (config : SnowpackConfig)
    (lockfile : Option ImportMap) (targets : List InstallTarget)
    (halias : config.aliasMap = [])
    (hsuccess : (install env config lockfile targets).success = true) :
    ∃ m, (install env config lockfile targets).importMap = some m ∧
      ∀ s, s ∈ assocKeys m ↔
        (s ∈ targets.map (·.specifier) ∧ rollupExternalTest config s = false ∧
          ignoredTarget env lockfile s = false) := by
  have keyarg : ∀ st : InstallState,
      installLoop env config lockfile (allInstallSpecifiers config targets)
        ({} : InstallState) = .ok st →
      ∀ s, s ∈ assocKeys st.importMapImports ↔
        (s ∈ targets.map (·.specifier) ∧ rollupExternalTest config s = false ∧
          ignoredTarget env lockfile s = false) := by
    intro st hloop s
    rw [installLoop_importMap_mem_nil halias hloop s]
    have hnil : s ∈ assocKeys ({} : InstallState).importMapImports ↔ False := by
      constructor
      · intro h; cases h
      · intro h; cases h
    rw [hnil, false_or]
    constructor
    · rintro ⟨hsin, hem⟩
      obtain ⟨t, ht, hext, hrw⟩ := mem_allInstallSpecifiers.1 hsin
      rw [aliasRewrite_nil halias] at hrw
      subst hrw
      exact ⟨List.mem_map_of_mem _ ht, hext, emitted_not_ignored hem⟩
    · rintro ⟨hsin, hext, hign⟩
      obtain ⟨t, ht, hspec⟩ := List.mem_map.1 hsin
      have hsin' : s ∈ allInstallSpecifiers config targets :=
        mem_allInstallSpecifiers.2 ⟨t, ht, by rw [hspec]; exact hext,
          by rw [aliasRewrite_nil halias, hspec]⟩
      have hnoerr := installLoop_stepNoError hloop s hsin'
      rw [stepNoError_eq, hign, Bool.or_false] at hnoerr
      exact ⟨hsin', hnoerr⟩
  by_cases hcfg : (config.webDependencies.isNone ∧ ¬ env.pnp ∧ ¬ env.nodeModulesInstalled)
  · exfalso
    unfold install at hsuccess
    rw [if_pos hcfg] at hsuccess
    exact Bool.false_ne_true hsuccess
  · unfold install at hsuccess ⊢
    rw [if_neg hcfg] at hsuccess ⊢
    cases hloop : installLoop env config lockfile
        (allInstallSpecifiers config targets) ({} : InstallState) with
    | error e =>
      rw [hloop] at hsuccess
      exact absurd hsuccess (by simp [failedInstall])
    | ok st =>
      rw [hloop] at hsuccess
      dsimp only at hsuccess ⊢
      by_cases hempty : (st.installEntrypoints.isEmpty ∧ st.assetEntrypoints.isEmpty)
      · rw [if_pos hempty]
        exact ⟨st.importMapImports, rfl, keyarg st hloop⟩
      · rw [if_neg hempty] at hsuccess ⊢
        by_cases hroll : (¬ st.installEntrypoints.isEmpty ∧ ¬ env.rollupSucceeds)
        · rw [if_pos hroll] at hsuccess
          exact absurd hsuccess (by simp [failedInstall])
        · rw [if_neg hroll]
          exact ⟨st.importMapImports, rfl, keyarg st hloop⟩

/-- Witness for the amended C7 on a completed run: one target, no aliases,
nothing externalized, nothing ignored. -/
theorem claim_C7_witness :
    ∃ m, (install envLodash {} none [tgtLodash]).importMap = some m ∧
      ∀ s, s ∈ assocKeys m ↔
        (s ∈ [tgtLodash].map (·.specifier) ∧ rollupExternalTest {} s = false ∧
          ignoredTarget envLodash none s = false) :=
  claim_C7 envLodash {} none [tgtLodash] rfl rfl

/-! ## Claim C4 -/

theorem foldl_assocSet_keys_not_mem {x c : String} :
    ∀ (ps : List (String × String)) (m : List (String × String)),
      x ∉ assocKeys m → (∀ p ∈ ps, p.1 ≠ x) →
      x ∉ assocKeys (ps.foldl (fun acc p => assocSet acc p.1 c) m)
  | [], _, hm, _ => hm
  | p :: ps, m, hm, hp => by
    rw [List.foldl_cons]
    refine foldl_assocSet_keys_not_mem ps _ ?_
      (fun q hq => hp q (List.mem_cons_of_mem p hq))
    intro hmem
    rcases mem_assocKeys_assocSet.1 hmem with h1 | h2
    · exact hp p (List.mem_cons_self p ps) h1.symm
    · exact hm h2

theorem installStep_importMap_preserve_not_mem {env : NodeEnv}
    {config : SnowpackConfig} {lockfile : Option ImportMap}
    {st st' : InstallState} {s x : String}
    (hx : ∀ p ∈ config.aliasMap, p.1 ≠ x) (hns : s ≠ x)
    (h : installStep env config lockfile st s = .ok st')
    (hm : x ∉ assocKeys st.importMapImports) :
    x ∉ assocKeys st'.importMapImports := by
  cases hhit : lockfileHit lockfile s with
  | true =>
    rw [installStep_lockfile hhit] at h
    have hst : st' = _ := (Except.ok.inj h).symm
    subst hst
    intro hmem
    rcases mem_assocKeys_assocSet.1 hmem with h1 | h2
    · exact hns h1.symm
    · exact hm h2
  | false =>
    cases hres : resolveWebDependency env s with
    | error e => rw [installStep_error hhit hres] at h; cases h
    | ok d =>
      obtain ⟨ty, loc⟩ := d
      cases ty with
      | JS =>
        rw [installStep_js hhit hres] at h
        have hst : st' = _ := (Except.ok.inj h).symm
        subst hst
        refine foldl_assocSet_keys_not_mem _ _ ?_ ?_
        · intro hmem
          rcases mem_assocKeys_assocSet.1 hmem with h1 | h2
          · exact hns h1.symm
          · exact hm h2
        · intro p hp
          exact hx p (List.mem_filter.1 hp).1
      | ASSET =>
        rw [installStep_asset hhit hres] at h
        have hst : st' = _ := (Except.ok.inj h).symm
        subst hst
        intro hmem
        rcases mem_assocKeys_assocSet.1 hmem with h1 | h2
        · exact hns h1.symm
        · exact hm h2
      | IGNORE =>
        rw [installStep_ignore hhit hres] at h
        have hst : st' = st := (Except.ok.inj h).symm
        subst hst
        exact hm

theorem installLoop_importMap_preserve_not_mem {env : NodeEnv}
    {config : SnowpackConfig} {lockfile : Option ImportMap} {x : String}
    (hx : ∀ p ∈ config.aliasMap, p.1 ≠ x) :
    ∀ {specs : List String} {st st' : InstallState},
      installLoop env config lockfile specs st = .ok st' →
      x ∉ specs → x ∉ assocKeys st.importMapImports →
      x ∉ assocKeys st'.importMapImports := by
  intro specs
  induction specs with
  | nil =>
    intro st st' h _ hm
    have hst : st' = st := (Except.ok.inj h).symm
    subst hst
    exact hm
  | cons y ys ih =>
    intro st st' h hns hm
    unfold installLoop at h
    revert h
    cases hstep : installStep env config lockfile st y with
    | error e => intro h; cases h
    | ok st₁ =>
      intro h
      refine ih h (fun hc => hns (List.mem_cons_of_mem y hc)) ?_
      exact installStep_importMap_preserve_not_mem hx
        (fun hc => hns (hc ▸ List.mem_cons_self y ys)) hstep hm

theorem installStep_entry_keys {env : NodeEnv} {config : SnowpackConfig}
    {lockfile : Option ImportMap} {st st' : InstallState} {s k : String}
    (h : installStep env config lockfile st s = .ok st')
    (hk : k ∈ assocKeys st'.installEntrypoints) :
    k ∈ assocKeys st.installEntrypoints ∨
      k = getWebDependencyName env.validForNewPackages s := by
  cases hhit : lockfileHit lockfile s with
  | true =>
    rw [installStep_lockfile hhit] at h
    have hst : st' = _ := (Except.ok.inj h).symm
    subst hst
    rcases mem_assocKeys_assocSet.1 hk with h1 | h2
    · exact Or.inr h1
    · exact Or.inl h2
  | false =>
    cases hres : resolveWebDependency env s with
    | error e => rw [installStep_error hhit hres] at h; cases h
    | ok d =>
      obtain ⟨ty, loc⟩ := d
      cases ty with
      | JS =>
        rw [installStep_js hhit hres] at h
        have hst : st' = _ := (Except.ok.inj h).symm
        subst hst
        rcases mem_assocKeys_assocSet.1 hk with h1 | h2
        · exact Or.inr h1
        · exact Or.inl h2
      | ASSET =>
        rw [installStep_asset hhit hres] at h
        have hst : st' = _ := (Except.ok.inj h).symm
        subst hst
        exact Or.inl hk
      | IGNORE =>
        rw [installStep_ignore hhit hres] at h
        have hst : st' = st := (Except.ok.inj h).symm
        subst hst
        exact Or.inl hk

theorem installLoop_entry_keys {env : NodeEnv} {config : SnowpackConfig}
    {lockfile : Option ImportMap} {k : String} :
    ∀ {specs : List String} {st st' : InstallState},
      installLoop env config lockfile specs st = .ok st' →
      k ∈ assocKeys st'.installEntrypoints →
      k ∈ assocKeys st.installEntrypoints ∨
        ∃ s ∈ specs, k = getWebDependencyName env.validForNewPackages s := by
  intro specs
  induction specs with
  | nil =>
    intro st st' h hk
    have hst : st' = st := (Except.ok.inj h).symm
    subst hst
    exact Or.inl hk
  | cons y ys ih =>
    intro st st' h hk
    unfold installLoop at h
    revert h
    cases hstep : installStep env config lockfile st y with
    | error e => intro h; cases h
    | ok st₁ =>
      intro h
      rcases ih h hk with h1 | ⟨s, hs, hks⟩
      · rcases installStep_entry_keys hstep h1 with h2 | h2
        · exact Or.inl h2
        · exact Or.inr ⟨y, List.mem_cons_self y ys, h2⟩
      · exact Or.inr ⟨s, List.mem_cons_of_mem y hs, hks⟩

/-- Claim C4 (corrected): the alias counterexample — `ext1` is externalized
and appears as an input target, yet the completed run's import map carries the
key `ext1`, because the surviving target `aaa` is alias-rewritten to `ext1`
(the external filter runs *before* alias rewriting). -/
theorem claim_C4_counterexample :
    tgtExt1 ∈ [tgtExt1, tgtAaa] ∧
    rollupExternalTest cfgExt1 tgtExt1.specifier = true ∧
    (install envExt1 cfgExt1 none [tgtExt1, tgtAaa]).success = true ∧
    (install envExt1 cfgExt1 none [tgtExt1, tgtAaa]).importMap =
      some [("ext1", "./ext1.js"), ("aaa", "./ext1.js")] ∧
    tgtExt1.specifier ∈ assocKeys [("ext1", "./ext1.js"), ("aaa", "./ext1.js")] :=
  ⟨List.mem_cons_self _ _, rfl, rfl, rfl, by decide⟩

/-- Claim C4 (amended): for every install target covered by an
externalized-package prefix — provided no alias key equals its specifier, no
package-kind alias target is itself covered by an externalized prefix, and no
surviving specifier shares its sanitized web-dependency name (the spec's own
sanitization-injectivity invariant) — the target is removed during
aggregation, its specifier is absent from the emitted import map, its
web-dependency name is absent from the bundler inputs, and the bundler's
`external` test is exactly the same prefix test. -/
theorem claim_C4 (env : NodeEnv) (config : SnowpackConfig)
    (lockfile : Option ImportMap) (targets : List InstallTarget)
    (t : InstallTarget) (_ht : t ∈ targets)
    (hext : rollupExternalTest config t.specifier = true)
    (hkeys : ∀ p ∈ config.aliasMap, p.1 ≠ t.specifier)
    (htos : ∀ p ∈ config.aliasMap, aliasKindOf p.2 = .package →
      rollupExternalTest config p.2 = false)
    (hnames : ∀ s ∈ allInstallSpecifiers config targets,
      getWebDependencyName env.validForNewPackages s ≠
        getWebDependencyName env.validForNewPackages t.specifier) :
    t.specifier ∉ allInstallSpecifiers config targets ∧
    (∀ m, (install env config lockfile targets).importMap = some m →
      t.specifier ∉ assocKeys m) ∧
    getWebDependencyName env.validForNewPackages t.specifier ∉
      assocKeys (install env config lockfile targets).installEntrypoints ∧
    (∀ id, rollupExternalTest config id =
      config.externalPackage.any
        (fun ext => ext = id || strStartsWith id (ext ++ "/"))) := by
  have hnotin : t.specifier ∉ allInstallSpecifiers config targets := by
    intro hin
    obtain ⟨u, _, huext, hurw⟩ := mem_allInstallSpecifiers.1 hin
    unfold aliasRewrite at hurw
    revert hurw
    cases hf : findMatchingAliasEntry config u.specifier with
    | none =>
      intro hurw
      have hurw' : u.specifier = t.specifier := hurw
      rw [hurw'] at huext
      cases hext.symm.trans huext
    | some kv =>
      obtain ⟨kind, toVal⟩ := kv
      cases kind with
      | package =>
        intro hurw
        have hurw' : toVal = t.specifier := hurw
        unfold findMatchingAliasEntry at hf
        revert hf
        cases hfind : config.aliasMap.find? (·.1 = u.specifier) with
        | none => intro hf; cases hf
        | some p =>
          intro hf
          have hp : p ∈ config.aliasMap := List.mem_of_find?_eq_some hfind
          have hkv : (aliasKindOf p.2, p.2) = (AliasKind.package, toVal) :=
            Option.some_inj.1 hf
          have h1 : aliasKindOf p.2 = AliasKind.package := congrArg Prod.fst hkv
          have h2 : p.2 = toVal := congrArg Prod.snd hkv
          have h3 := htos p hp h1
          rw [h2, hurw'] at h3
          cases hext.symm.trans h3
      | path =>
        intro hurw
        have hurw' : u.specifier = t.specifier := hurw
        rw [hurw'] at huext
        cases hext.symm.trans huext
      | url =>
        intro hurw
        have hurw' : u.specifier = t.specifier := hurw
        rw [hurw'] at huext
        cases hext.symm.trans huext
  refine ⟨hnotin, ?_, ?_, fun id => rfl⟩
  · -- absent from the emitted import map
    intro m hm hmem
    by_cases hcfg : (config.webDependencies.isNone ∧ ¬ env.pnp ∧ ¬ env.nodeModulesInstalled)
    · unfold install at hm
      rw [if_pos hcfg] at hm
      exact Option.noConfusion hm
    · unfold install at hm
      rw [if_neg hcfg] at hm
      revert hm
      cases hloop : installLoop env config lockfile
          (allInstallSpecifiers config targets) ({} : InstallState) with
      | error e => intro hm; exact Option.noConfusion hm
      | ok st =>
        have hpres : t.specifier ∉ assocKeys st.importMapImports :=
          installLoop_importMap_preserve_not_mem hkeys hloop hnotin
            (by intro hc; cases hc)
        dsimp only
        by_cases hempty : (st.installEntrypoints.isEmpty ∧ st.assetEntrypoints.isEmpty)
        · rw [if_pos hempty]
          intro hm
          have hmm : m = st.importMapImports := (Option.some_inj.1 hm).symm
          subst hmm
          exact hpres hmem
        · rw [if_neg hempty]
          by_cases hroll : (¬ st.installEntrypoints.isEmpty ∧ ¬ env.rollupSucceeds)
          · rw [if_pos hroll]
            intro hm
            exact Option.noConfusion hm
          · rw [if_neg hroll]
            intro hm
            have hmm : m = st.importMapImports := (Option.some_inj.1 hm).symm
            subst hmm
            exact hpres hmem
  · -- absent from the bundler inputs
    by_cases hcfg : (config.webDependencies.isNone ∧ ¬ env.pnp ∧ ¬ env.nodeModulesInstalled)
    · unfold install
      rw [if_pos hcfg]
      intro hk
      cases hk
    · unfold install
      rw [if_neg hcfg]
      cases hloop : installLoop env config lockfile
          (allInstallSpecifiers config targets) ({} : InstallState) with
      | error e =>
        intro hk
        cases hk
      | ok st =>
        have hentry : getWebDependencyName env.validForNewPackages t.specifier ∉
            assocKeys st.installEntrypoints := by
          intro hk
          rcases installLoop_entry_keys hloop hk with h1 | ⟨s, hs, hks⟩
          · cases h1
          · exact hnames s hs hks.symm
        dsimp only
        by_cases hempty : (st.installEntrypoints.isEmpty ∧ st.assetEntrypoints.isEmpty)
        · rw [if_pos hempty]
          exact hentry
        · rw [if_neg hempty]
          by_cases hroll : (¬ st.installEntrypoints.isEmpty ∧ ¬ env.rollupSucceeds)
          · rw [if_pos hroll]
            intro hk
            cases hk
          · rw [if_neg hroll]
            exact hentry

/-- Witness for the amended C4: one externalized target, no aliases — it is
filtered during aggregation, absent from the import map and the bundler
inputs, and the bundler external test flags it. -/
theorem claim_C4_witness :
    tgtExt1.specifier ∉ allInstallSpecifiers cfgExtOnly [tgtExt1] ∧
    (∀ m, (install envNoResolve cfgExtOnly none [tgtExt1]).importMap = some m →
      tgtExt1.specifier ∉ assocKeys m) ∧
    getWebDependencyName envNoResolve.validForNewPackages tgtExt1.specifier ∉
      assocKeys (install envNoResolve cfgExtOnly none [tgtExt1]).installEntrypoints ∧
    (∀ id, rollupExternalTest cfgExtOnly id =
      cfgExtOnly.externalPackage.any
        (fun ext => ext = id || strStartsWith id (ext ++ "/"))) :=
  claim_C4 envNoResolve cfgExtOnly none [tgtExt1] tgtExt1
    (List.mem_cons_self _ _) rfl
    (by intro p hp; cases hp)
    (by intro p hp; cases hp)
    (by
      intro s hs
      rw [show allInstallSpecifiers cfgExtOnly [tgtExt1] = [] from rfl] at hs
      cases hs)

end Snowpack
